import Mathlib

/-!
Shallow embedding of the composor repository (build_manager.py,
deploy_manager.py, utils/__init__.py) and proofs about its deployment
selection / rollback logic, its consolidated artifact writer and its
dry-run behaviour.

Conventions of the embedding:
* Python strings are Lean `String`s (both compare lexicographically by
  code point).
* Parsed YAML documents (the result of `yaml.safe_load`) are `PyVal`s.
* The artifact directory is a `FS`: an association list from file name to
  (parsed) content, together with an audit trail of the filesystem
  mutations performed (`Event`s), in order.  Renames and writes are the
  only mutations the code performs in this directory.
* Exceptions are modelled with `Except`; a function that can raise returns
  the state reached so far together with the outcome, mirroring the fact
  that on a real filesystem the mutations already performed survive an
  exception.
* External collaborators (git, docker, the compose tool lookup) are passed
  in as explicit values; the commands a function would execute are
  returned as data.
-/

namespace Composor

/-- Result of `yaml.safe_load` (and, generally, a Python value as far as the
code under study inspects one). -/
inductive PyVal where
  | none
  | bool (b : Bool)
  | int (n : Int)
  | str (s : String)
  | list (xs : List PyVal)
  | dict (entries : List (String × PyVal))
deriving Repr

/-- Python truthiness (`if data:`) for the values we model. -/
def pyTruthy : PyVal → Bool
  | .none => false
  | .bool b => b
  | .int n => n != 0
  | .str s => s != ""
  | .list xs => !xs.isEmpty
  | .dict es => !es.isEmpty

/-- `isinstance(v, dict)`. -/
def PyVal.isDict : PyVal → Bool
  | .dict _ => true
  | _ => false

/-- `d[k] = v` / one-key `dict.update`: replace the value of an existing key
in place, otherwise append the key at the end (Python dicts preserve
insertion order). -/
def pyDictSet (es : List (String × PyVal)) (k : String) (v : PyVal) :
    List (String × PyVal) :=
  if es.any (fun e => e.1 = k) then
    es.map (fun e => if e.1 = k then (k, v) else e)
  else
    es ++ [(k, v)]

/-- An `Optional[str]` argument flushed into a YAML document. -/
def pyOfOptStr : Option String → PyVal
  | Option.none => PyVal.none
  | Option.some s => PyVal.str s

/-- Truthiness of an `Optional[str]` (`if file:`). -/
def pyTruthyOptStr : Option String → Bool
  | Option.none => false
  | Option.some s => s != ""

/-- Truthiness of an `Optional[int]` (`if args.rollback:`). -/
def pyTruthyOptInt : Option Int → Bool
  | Option.none => false
  | Option.some n => n != 0

/-- Exceptions raised by the code paths we model. -/
inductive PyErr where
  | attributeError
  | runtimeError
deriving DecidableEq, Repr

/-- `str.upper()` (ASCII; the names appearing in configs are ASCII). -/
def pyUpper (s : String) : String := String.mk (s.data.map Char.toUpper)

/-- `sep.join(parts)`. -/
def pyJoin (sep : String) : List String → String
  | [] => ""
  | [x] => x
  | x :: xs => x ++ sep ++ pyJoin sep xs

/-- `l[0:k]` for an `int` slice bound `k` (negative bounds count from the
end, out-of-range bounds clamp). -/
def pySlice0 {α : Type} (l : List α) (k : Int) : List α :=
  l.take (if k < 0 then ((l.length : Int) + k).toNat else k.toNat)

/-- The characters matched by the regex class `[\s\-]` in
`utils.normalize_name` (ASCII whitespace and the dash). -/
def isSpaceDash (c : Char) : Bool :=
  c = ' ' || c = '\t' || c = '\n' || c = '\r' || c = '\x0b' || c = '\x0c' || c = '-'

/-- Scanner for `re.sub(r"[\s\-]+", "_", ·)`: `inRun` records whether the
previous character belonged to a whitespace/dash run (whose `_` has
already been emitted). -/
def collapseAux (inRun : Bool) : List Char → List Char
  | [] => []
  | c :: rest =>
    if isSpaceDash c then
      if inRun then collapseAux true rest else '_' :: collapseAux true rest
    else c :: collapseAux false rest

/-- `re.sub(r"[\s\-]+", "_", ·)`: replace each maximal run of
whitespace/dash characters by a single underscore. -/
def collapseRuns (l : List Char) : List Char := collapseAux false l

/-- `utils.normalize_name`: collapse whitespace/dash runs to `_`, drop the
remaining characters outside `[0-9A-Za-z_]`, uppercase. -/
def normalize_name (s : String) : String :=
  String.mk (((collapseRuns s.data).filter
    (fun c => c.isAlphanum || c = '_')).map Char.toUpper)

/-- `pathlib.PurePath.stem` for a bare file name: drop the last suffix; a
dot at position 0 or a trailing dot does not begin a suffix. -/
def pyStem (n : String) : String :=
  let cs := n.data
  match cs.reverse.findIdx? (fun c => c = '.') with
  | Option.none => n
  | Option.some j =>
    let i := cs.length - 1 - j
    if 0 < i ∧ i < cs.length - 1 then String.mk (cs.take i) else n

/-- Scanner for `str.replace(pat, new, 1)`: rewrite the first occurrence
of `pat`, keep everything else. -/
def replaceFirstAux (pat new : List Char) : List Char → List Char
  | [] => []
  | c :: rest =>
    if pat.isPrefixOf (c :: rest) then new ++ (c :: rest).drop pat.length
    else c :: replaceFirstAux pat new rest

/-- `str.replace(pat, new, 1)`: replace the first occurrence of `pat`. -/
def pyReplaceFirst (s pat new : String) : String :=
  String.mk (replaceFirstAux pat.data new.data s.data)

/-- Python string comparison `a < b`: lexicographic by code point. -/
def charsLt : List Char → List Char → Bool
  | _, [] => false
  | [], _ :: _ => true
  | a :: as, b :: bs =>
    if a.toNat < b.toNat then true
    else if b.toNat < a.toNat then false
    else charsLt as bs

/-- `a < b` for Python strings. -/
def pyStrLt (a b : String) : Bool := charsLt a.data b.data

/-- Stable insertion into a descending list; `a` is placed before the first
element not greater than it, matching the result of Python
`sorted(·, reverse=True)` on the strings involved. -/
def insertDesc (a : String) : List String → List String
  | [] => [a]
  | b :: l => if pyStrLt a b then b :: insertDesc a l else a :: b :: l

/-- `sorted(l, reverse=True)` for strings (Python compares strings by code
point, exactly as Lean's `String` order does). -/
def pySortDesc : List String → List String
  | [] => []
  | a :: l => insertDesc a (pySortDesc l)

/-- Whether a file name matches the glob `env_*.env` used by
`list_env_files` (names never contain a path separator here). -/
def matchesEnvGlob (n : String) : Bool :=
  "env_".data.isPrefixOf n.data && ".env".data.isSuffixOf n.data
    && decide (8 ≤ n.data.length)

/-- ASCII digit test used for well-formed timestamps. -/
def isDigitChar (c : Char) : Bool := 48 ≤ c.toNat && c.toNat ≤ 57

/-- A well-formed snapshot name `env_<YYYYMMDDHHMMSS>.env`: 4 + 14 + 4
characters, with a 14-digit timestamp between the fixed prefix and
suffix. -/
def wellFormedSnap (n : String) : Bool :=
  n.data.length = 22 && "env_".data.isPrefixOf n.data
    && ".env".data.isSuffixOf n.data
    && ((n.data.drop 4).take 14).all isDigitChar

/-- The digit characters of the timestamp embedded in a snapshot name. -/
def tsDigits (n : String) : List Char := (n.data.drop 4).take 14

/-- Value of a fixed-width digit string, most significant digit first. -/
def digitsVal : List Char → Nat
  | [] => 0
  | c :: cs => (c.toNat - 48) * 10 ^ cs.length + digitsVal cs

/-- The embedded timestamp of a snapshot name, as a number. -/
def tsNat (n : String) : Nat := digitsVal (tsDigits n)

/-- One filesystem mutation inside the artifact directory. -/
inductive Event where
  | rename (old new : String)
  | write (name : String)
deriving DecidableEq, Repr

/-- The artifact directory: files (name, parsed content) plus the audit
trail of mutations performed so far (oldest first). -/
structure FS where
  entries : List (String × PyVal)
  events : List Event
deriving Repr

/-- The names of the files currently in the directory. -/
def FS.names (fs : FS) : List String := fs.entries.map Prod.fst

/-- `Path.exists()` within the directory. -/
def fsExists (fs : FS) (n : String) : Bool := fs.entries.any (fun e => e.1 = n)

/-- Content of a file (the parse of its text); only consulted after an
existence check in the code under study. -/
def fsRead (fs : FS) (n : String) : PyVal :=
  match fs.entries.find? (fun e => e.1 = n) with
  | Option.none => PyVal.none
  | Option.some e => e.2

/-- `Path.rename`: the entry called `old` now answers to `new`.  (The code
only renames files it has just listed or checked, so `old` exists at every
call site, and the `.defect` target name is fresh in the runs covered by
the theorems below.) -/
def fsRename (fs : FS) (old new : String) : FS :=
  { entries := fs.entries.map (fun e => if e.1 = old then (new, e.2) else e)
    events := fs.events ++ [Event.rename old new] }

/-- `open(n, "w")` + write: replace the content of `n` if present,
otherwise create it (appended at the end of the listing). -/
def fsWriteFile (fs : FS) (n : String) (v : PyVal) : FS :=
  { entries :=
      if fs.entries.any (fun e => e.1 = n) then
        fs.entries.map (fun e => if e.1 = n then (n, v) else e)
      else fs.entries ++ [(n, v)]
    events := fs.events ++ [Event.write n] }

/-! ### deploy_manager.py -/

/-- Availability of the external compose tooling, as observed by
`check_docker_compose`: whether `shutil.which` finds the two binaries, and
whether `run_cmd(["docker", "compose", "version"], ...)` raises
`FileNotFoundError`. -/
structure Tools where
  hasDockerCompose : Bool
  hasDocker : Bool
  pluginVersionRaisesFNF : Bool
deriving Repr

/-- `check_docker_compose`: prefer the standalone binary, else probe the
plugin, else raise `RuntimeError`.  (A non-zero exit of the probe would
raise `CalledProcessError`; only the `FileNotFoundError` branch is modelled
since only it is caught.) -/
def check_docker_compose (t : Tools) : Except PyErr String :=
  if t.hasDockerCompose then Except.ok "docker-compose"
  else if t.hasDocker then
    if t.pluginVersionRaisesFNF then Except.error PyErr.runtimeError
    else Except.ok "docker compose"
  else Except.error PyErr.runtimeError

/-- `list_env_files`: the names matching `env_*.env`, sorted descending.
(`Path.glob` enumerates in unspecified order — here: directory order — and
`sorted(..., reverse=True)` normalises it; `Path` order on sibling files is
their name order.) -/
def list_env_files (fs : FS) : List String :=
  pySortDesc (fs.names.filter (fun n => matchesEnvGlob n))

/-- The report file paired with a snapshot, as computed by
`update_yaml_report`: `env_file.stem.replace("env_", "", 1)` glued into
`report_<timestamp>.yaml` via `with_name`. -/
def reportName (envFile : String) : String :=
  "report_" ++ pyReplaceFirst (pyStem envFile) "env_" "" ++ ".yaml"

/-- The `rollback:` mapping merged into a report. -/
def rollbackVal (now : String) (reason : Option String) : PyVal :=
  PyVal.dict [("timestamp", PyVal.str now), ("reason", pyOfOptStr reason)]

/-- `update_yaml_report(env_file, reason, dry_run)`.  `now` stands for
`utils.get_timestamp()`.  Returns the directory state reached and the
outcome; the only exception this can raise is the `AttributeError` of
`data.update(...)` when the report parsed to a truthy non-dict. -/
def update_yaml_report (fs : FS) (envFile : String) (reason : Option String)
    (now : String) (dry : Bool) : FS × Except PyErr Unit :=
  if !fsExists fs (reportName envFile) then (fs, Except.ok ())
  else if !pyTruthy (fsRead fs (reportName envFile))
      && !(fsRead fs (reportName envFile)).isDict then (fs, Except.ok ())
  else
    match fsRead fs (reportName envFile) with
    | PyVal.dict es =>
      if dry then (fs, Except.ok ())
      else
        (fsRename
          (fsWriteFile fs (reportName envFile)
            (PyVal.dict (pyDictSet es "rollback" (rollbackVal now reason))))
          (reportName envFile) (reportName envFile ++ ".defect"),
         Except.ok ())
    | _ => (fs, Except.error PyErr.attributeError)

/-- `mark_defective(env_file, dry_run)`: rename to `<name>.defect`
(`with_suffix(suffix + ".defect")` appends `.defect` to these names). -/
def mark_defective (fs : FS) (envFile : String) (dry : Bool) : FS :=
  if dry then fs else fsRename fs envFile (envFile ++ ".defect")

/-- The body of `for f in env_files[0:index]: mark_defective(f, ...);
update_yaml_report(f, ...)` — an exception aborts the remaining
iterations but the mutations already performed stay. -/
def rollbackLoop (now : String) (reason : Option String) (dry : Bool) :
    FS → List String → FS × Except PyErr Unit
  | fs, [] => (fs, Except.ok ())
  | fs, f :: rest =>
    match update_yaml_report (mark_defective fs f dry) f reason now dry with
    | (fs1, Except.error e) => (fs1, Except.error e)
    | (fs1, Except.ok _) => rollbackLoop now reason dry fs1 rest

/-- `get_env_file(env_dir, index, file, rollback, reason, dry_run)`.
`rollback` is the truthiness of the value the caller passes (`main` passes
`args.rollback`, an `Optional[int]`).  Returns the directory state reached
and `Some` selected name, `None` for the logged-error cases, or the
propagated exception. -/
def get_env_file (fs : FS) (index : Int) (file : Option String)
    (rollback : Bool) (reason : Option String) (dry : Bool) (now : String) :
    FS × Except PyErr (Option String) :=
  if (list_env_files fs).isEmpty then (fs, Except.ok Option.none)
  else if pyTruthyOptStr file then
    if fsExists fs (file.getD "") then (fs, Except.ok (Option.some (file.getD "")))
    else (fs, Except.ok Option.none)
  else
    match (if rollback then
            rollbackLoop now reason dry fs (pySlice0 (list_env_files fs) index)
           else (fs, Except.ok ())) with
    | (fs1, Except.error e) => (fs1, Except.error e)
    | (fs1, Except.ok _) =>
      if h : 0 ≤ index ∧ index < ((list_env_files fs).length : Int) then
        (fs1, Except.ok (Option.some ((list_env_files fs).get
          ⟨index.toNat, by omega⟩)))
      else (fs1, Except.ok Option.none)

/-- `deploy(env_file, compose_files, restart, stop, dry)`: detect the
compose tool, assemble the command, run it unless dry.  Returns the
assembled command and whether it was executed. -/
def deploy (envFile : String) (composeFiles : List String)
    (restart stop dry : Bool) (tools : Tools) :
    Except PyErr (List String × Bool) :=
  match check_docker_compose tools with
  | Except.error e => Except.error e
  | Except.ok composeCmd =>
    let cmd := [composeCmd]
      ++ composeFiles.flatMap (fun f => ["-f", f])
      ++ ["--env-file", envFile]
      ++ (if restart then ["up", "-d", "--force-recreate"]
          else if stop then ["down"]
          else ["up", "-d"])
    Except.ok (cmd, !dry)

/-- The parsed CLI arguments of `deploy_manager.main` (after argparse). -/
structure Args where
  file : Option String
  rollback : Option Int
  switch : Option Int
  compose : List String
  restart : Bool
  stop : Bool
  reason : Option String
  list : Bool
  dry : Bool
deriving Repr

/-- How one invocation of `deploy_manager.main` ends. -/
inductive MainOutcome where
  | reasonRequired
  | mutuallyExclusive
  | noEnvs
  | listed (lines : List String)
  | noEnvFile
  | deployed (envFile : String) (cmd : List String) (executed : Bool)
  | raised (e : PyErr)
deriving DecidableEq, Repr

/-- `deploy_manager.main`: validations, listing, selection, deployment.
Returns the directory state when control leaves `main` together with the
outcome. -/
def mainDeploy (fs : FS) (tools : Tools) (args : Args) (now : String) :
    FS × MainOutcome :=
  if pyTruthyOptInt args.rollback && !pyTruthyOptStr args.reason then
    (fs, MainOutcome.reasonRequired)
  else if pyTruthyOptInt args.rollback && pyTruthyOptInt args.switch then
    (fs, MainOutcome.mutuallyExclusive)
  else if (list_env_files fs).isEmpty then (fs, MainOutcome.noEnvs)
  else if args.list then
    (fs, MainOutcome.listed ((((List.range (list_env_files fs).length)).zip
      (list_env_files fs)).map (fun p => Nat.repr p.1 ++ ": " ++ p.2)))
  else
    match get_env_file fs
        (if pyTruthyOptInt args.switch then args.switch.getD 0
         else if pyTruthyOptInt args.rollback then args.rollback.getD 0 else 0)
        args.file (pyTruthyOptInt args.rollback) args.reason args.dry now with
    | (fs1, Except.error e) => (fs1, MainOutcome.raised e)
    | (fs1, Except.ok Option.none) => (fs1, MainOutcome.noEnvFile)
    | (fs1, Except.ok (Option.some envFile)) =>
      match deploy envFile args.compose args.restart args.stop args.dry tools with
      | Except.error e => (fs1, MainOutcome.raised e)
      | Except.ok (cmd, executed) => (fs1, MainOutcome.deployed envFile cmd executed)

/-! ### build_manager.py -/

/-- `build_docker_image(app, base_dir, dry)` for an application whose
working copy sits at `appPath` and whose current short HEAD hash the git
collaborator reports as `gitHeadHash`.  Returns the image tag and the
subprocess commands actually executed (`run_cmd` executes nothing when
dry; the hash resolution is skipped when dry and `"DRY"` is used). -/
def build_docker_image (appName appPath gitHeadHash : String) (dry : Bool) :
    String × List (List String) :=
  let gitHash := if dry then "DRY" else gitHeadHash
  let imageTag := appName ++ ":" ++ gitHash
  let executed := if dry then [] else [["docker", "build", "-t", imageTag, appPath]]
  (imageTag, executed)

/-- The lines `f"{name.upper()}_IMAGE={tag}"` of the consolidated env
file, in mapping order. -/
def envLines (appImages : List (String × String)) : List String :=
  appImages.map (fun p => pyUpper p.1 ++ "_IMAGE=" ++ p.2)

/-- `create_consolidated_env(app_images, env_dir, timestamp, dry)`: write
`env_<timestamp>.env` (one line per app plus a trailing newline) unless
dry.  Returns the new directory state and the env file name. -/
def create_consolidated_env (fs : FS) (appImages : List (String × String))
    (timestamp : String) (dry : Bool) : FS × String :=
  let envFile := "env_" ++ timestamp ++ ".env"
  let content := pyJoin "\n" (envLines appImages) ++ "\n"
  if dry then (fs, envFile)
  else (fsWriteFile fs envFile (PyVal.str content), envFile)

/-- `generate_consolidated_report(app_images, env_file, timestamp,
report_dir, dry)` with `report_dir` equal to the artifact directory, as
`build_manager.main` passes it.  Writes `report_<timestamp>.yaml` unless
dry. -/
def generate_consolidated_report (fs : FS) (appImages : List (String × String))
    (envFile : String) (timestamp : String) (dry : Bool) : FS × String :=
  let reportFile := "report_" ++ timestamp ++ ".yaml"
  let reportData := PyVal.dict
    [("timestamp", PyVal.str timestamp),
     ("env_file", PyVal.str envFile),
     ("apps", PyVal.list (appImages.map (fun p =>
       PyVal.dict [("name", PyVal.str p.1), ("image_tag", PyVal.str p.2)])))]
  if dry then (fs, reportFile)
  else (fsWriteFile fs reportFile reportData, reportFile)

/-! ### Specification vocabulary for the rollback effect -/

/-- What `update_yaml_report` merges into a report that parses as a
mapping; other parses are left as they are (the code would in fact raise
before reaching the write for truthy non-mappings). -/
def annotate (now : String) (reason : Option String) : PyVal → PyVal
  | PyVal.dict es => PyVal.dict (pyDictSet es "rollback" (rollbackVal now reason))
  | v => v

/-- The entry-level effect of one whole rollback pass over `files`: each
listed snapshot is renamed `.defect`, its paired report is annotated and
renamed `.defect`, everything else is untouched. -/
def rollbackRename (files : List String) (now : String) (reason : Option String)
    (e : String × PyVal) : String × PyVal :=
  if e.1 ∈ files then (e.1 ++ ".defect", e.2)
  else if e.1 ∈ files.map reportName then (e.1 ++ ".defect", annotate now reason e.2)
  else e

/-- The audit-trail entries produced by defect-marking one snapshot. -/
def defectEvents (f : String) : List Event :=
  [Event.rename f (f ++ ".defect"), Event.write (reportName f),
   Event.rename (reportName f) (reportName f ++ ".defect")]

/-! ### Order facts about the code-point comparison -/

theorem charToNat_inj {a b : Char} (h : a.toNat = b.toNat) : a = b :=
  Char.ext (UInt32.toNat.inj h)

theorem charsLt_irrefl : ∀ l : List Char, charsLt l l = false
  | [] => rfl
  | c :: cs => by simp [charsLt, charsLt_irrefl cs]

theorem charsLt_asymm : ∀ {a b : List Char}, charsLt a b = true → charsLt b a = false
  | _, [], h => by simp [charsLt] at h
  | [], _ :: _, _ => rfl
  | a :: as, b :: bs, h => by
    simp only [charsLt] at h ⊢
    by_cases h1 : a.toNat < b.toNat
    · simp [h1, Nat.lt_asymm h1, Nat.lt_irrefl, show ¬ b.toNat < a.toNat from Nat.lt_asymm h1]
    · by_cases h2 : b.toNat < a.toNat
      · simp [h1, h2] at h
      · simp only [h1, h2, if_false, if_neg] at h ⊢
        simp [h1, h2, charsLt_asymm h]

theorem charsLt_trans : ∀ {a b c : List Char},
    charsLt a b = true → charsLt b c = true → charsLt a c = true
  | _, _, [], _, h2 => by simp [charsLt] at h2
  | _, [], _ :: _, h1, _ => by simp [charsLt] at h1
  | [], _ :: _, _ :: _, _, _ => rfl
  | a :: as, b :: bs, c :: cs, h1, h2 => by
    simp only [charsLt] at h1 h2 ⊢
    by_cases hab : a.toNat < b.toNat
    · by_cases hbc : b.toNat < c.toNat
      · simp [Nat.lt_trans hab hbc]
      · by_cases hcb : c.toNat < b.toNat
        · simp [hab, hbc, hcb] at h2
        · have : b.toNat = c.toNat := Nat.le_antisymm (Nat.le_of_not_lt hcb) (Nat.le_of_not_lt hbc)
          simp [this ▸ hab]
    · by_cases hba : b.toNat < a.toNat
      · simp [hab, hba] at h1
      · have hA : a.toNat = b.toNat := Nat.le_antisymm (Nat.le_of_not_lt hba) (Nat.le_of_not_lt hab)
        by_cases hbc : b.toNat < c.toNat
        · simp [hA ▸ hbc]
        · by_cases hcb : c.toNat < b.toNat
          · simp [hbc, hcb] at h2
          · simp only [hab, hba, if_neg, if_false] at h1
            simp only [hbc, hcb, if_neg, if_false] at h2
            have hac : ¬ a.toNat < c.toNat := hA ▸ hbc
            have hca : ¬ c.toNat < a.toNat := hA ▸ hcb
            simp [hac, hca, charsLt_trans h1 h2]

theorem charsLt_total : ∀ a b : List Char,
    charsLt a b = true ∨ a = b ∨ charsLt b a = true
  | [], [] => Or.inr (Or.inl rfl)
  | [], _ :: _ => Or.inl rfl
  | _ :: _, [] => Or.inr (Or.inr rfl)
  | a :: as, b :: bs => by
    rcases Nat.lt_trichotomy a.toNat b.toNat with h | h | h
    · exact Or.inl (by simp [charsLt, h])
    · have hab : a = b := charToNat_inj h
      rcases charsLt_total as bs with h1 | h1 | h1
      · exact Or.inl (by simp [charsLt, hab, h1])
      · exact Or.inr (Or.inl (by rw [hab, h1]))
      · exact Or.inr (Or.inr (by simp [charsLt, hab, h1]))
    · exact Or.inr (Or.inr (by simp [charsLt, h]))

theorem pyStrLt_irrefl (a : String) : pyStrLt a a = false := charsLt_irrefl a.data

theorem pyStrLt_asymm {a b : String} (h : pyStrLt a b = true) : pyStrLt b a = false :=
  charsLt_asymm h

theorem pyStrLt_total (a b : String) : pyStrLt a b = true ∨ a = b ∨ pyStrLt b a = true := by
  rcases charsLt_total a.data b.data with h | h | h
  · exact Or.inl h
  · exact Or.inr (Or.inl (by cases a; cases b; exact congrArg String.mk h))
  · exact Or.inr (Or.inr h)

/-- `¬ a < b` is transitive (it says `a ≥ b`). -/
theorem pyStrGe_trans {a b c : String}
    (h1 : pyStrLt a b = false) (h2 : pyStrLt b c = false) : pyStrLt a c = false := by
  by_contra h
  have hac : pyStrLt a c = true := by
    cases hx : pyStrLt a c
    · exact absurd hx h
    · rfl
  rcases pyStrLt_total a b with hab | hab | hab
  · rw [hab] at h1; exact absurd h1 (by simp)
  · subst hab; rw [hac] at h2; exact absurd h2 (by simp)
  · have hbc : pyStrLt b c = true := charsLt_trans hab hac
    rw [hbc] at h2; exact absurd h2 (by simp)

/-! ### `pySortDesc` is a descending permutation -/

theorem insertDesc_perm (a : String) : ∀ l : List String,
    (insertDesc a l).Perm (a :: l)
  | [] => List.Perm.refl _
  | b :: l => by
    simp only [insertDesc]
    by_cases h : pyStrLt a b = true
    · simp only [h, if_true]
      exact ((insertDesc_perm a l).cons b).trans (List.Perm.swap a b l)
    · simp [h]

theorem pySortDesc_perm : ∀ l : List String, (pySortDesc l).Perm l
  | [] => List.Perm.refl _
  | a :: l => (insertDesc_perm a (pySortDesc l)).trans ((pySortDesc_perm l).cons a)

theorem insertDesc_sorted (a : String) : ∀ {l : List String},
    l.Pairwise (fun x y => pyStrLt x y = false) →
    (insertDesc a l).Pairwise (fun x y => pyStrLt x y = false)
  | [], _ => by simp [insertDesc]
  | b :: l, h => by
    rcases List.pairwise_cons.mp h with ⟨hb, hl⟩
    simp only [insertDesc]
    by_cases hab : pyStrLt a b = true
    · simp only [hab, if_true]
      refine List.pairwise_cons.mpr ⟨?_, insertDesc_sorted a hl⟩
      intro x hx
      have hx' := (insertDesc_perm a l).mem_iff.mp hx
      rcases List.mem_cons.mp hx' with rfl | hx''
      · exact pyStrLt_asymm hab
      · exact hb x hx''
    · have hab' : pyStrLt a b = false := by
        cases hx : pyStrLt a b
        · rfl
        · exact absurd hx hab
      simp only [hab, if_false, if_neg]
      refine List.pairwise_cons.mpr ⟨?_, h⟩
      intro x hx
      rcases List.mem_cons.mp hx with rfl | hx'
      · exact hab'
      · exact pyStrGe_trans hab' (hb x hx')

theorem pySortDesc_sorted : ∀ l : List String,
    (pySortDesc l).Pairwise (fun x y => pyStrLt x y = false)
  | [] => List.Pairwise.nil
  | a :: l => insertDesc_sorted a (pySortDesc_sorted l)

theorem mem_pySortDesc {a : String} {l : List String} :
    a ∈ pySortDesc l ↔ a ∈ l := (pySortDesc_perm l).mem_iff

theorem pySortDesc_nodup {l : List String} (h : l.Nodup) : (pySortDesc l).Nodup :=
  (pySortDesc_perm l).nodup_iff.mpr h

/-! ### Fixed-width digit strings compare like their numeric values -/

theorem digitsVal_lt_pow {cs : List Char} (h : ∀ c ∈ cs, isDigitChar c = true) :
    digitsVal cs < 10 ^ cs.length := by
  induction cs with
  | nil => simp [digitsVal]
  | cons c cs ih =>
    have hc := h c (List.mem_cons_self c cs)
    have hcs := ih (fun x hx => h x (List.mem_cons_of_mem c hx))
    have hd : c.toNat - 48 ≤ 9 := by
      simp only [isDigitChar, Bool.and_eq_true, decide_eq_true_eq] at hc
      omega
    calc digitsVal (c :: cs) = (c.toNat - 48) * 10 ^ cs.length + digitsVal cs := rfl
      _ < (c.toNat - 48) * 10 ^ cs.length + 10 ^ cs.length := Nat.add_lt_add_left hcs _
      _ = (c.toNat - 48 + 1) * 10 ^ cs.length := by ring
      _ ≤ 10 * 10 ^ cs.length := Nat.mul_le_mul_right _ (by omega)
      _ = 10 ^ (c :: cs).length := by rw [List.length_cons]; ring

theorem charsLt_digits : ∀ {s t : List Char}, s.length = t.length →
    (∀ c ∈ s, isDigitChar c = true) → (∀ c ∈ t, isDigitChar c = true) →
    charsLt s t = decide (digitsVal s < digitsVal t)
  | [], [], _, _, _ => by simp [charsLt, digitsVal]
  | [], _ :: _, h, _, _ => by simp at h
  | _ :: _, [], h, _, _ => by simp at h
  | a :: as, b :: bs, hlen, hs, ht => by
    have hlen' : as.length = bs.length := by simpa using hlen
    have ha := hs a (List.mem_cons_self a as)
    have hb := ht b (List.mem_cons_self b bs)
    have has : ∀ c ∈ as, isDigitChar c = true := fun c hc => hs c (List.mem_cons_of_mem a hc)
    have hbs : ∀ c ∈ bs, isDigitChar c = true := fun c hc => ht c (List.mem_cons_of_mem b hc)
    simp only [isDigitChar, Bool.and_eq_true, decide_eq_true_eq] at ha hb
    have hva : digitsVal as < 10 ^ as.length := digitsVal_lt_pow has
    have hvb : digitsVal bs < 10 ^ bs.length := digitsVal_lt_pow hbs
    simp only [charsLt, digitsVal]
    by_cases hab : a.toNat < b.toNat
    · have : (a.toNat - 48) * 10 ^ as.length + digitsVal as
          < (b.toNat - 48) * 10 ^ bs.length + digitsVal bs := by
        rw [← hlen']
        have h1 : a.toNat - 48 + 1 ≤ b.toNat - 48 := by omega
        calc (a.toNat - 48) * 10 ^ as.length + digitsVal as
            < (a.toNat - 48) * 10 ^ as.length + 10 ^ as.length := by omega
          _ = (a.toNat - 48 + 1) * 10 ^ as.length := by ring
          _ ≤ (b.toNat - 48) * 10 ^ as.length := Nat.mul_le_mul_right _ h1
          _ ≤ (b.toNat - 48) * 10 ^ as.length + digitsVal bs := Nat.le_add_right _ _
      simp [hab, this]
    · by_cases hba : b.toNat < a.toNat
      · have : (b.toNat - 48) * 10 ^ bs.length + digitsVal bs
            < (a.toNat - 48) * 10 ^ as.length + digitsVal as := by
          rw [hlen']
          have h1 : b.toNat - 48 + 1 ≤ a.toNat - 48 := by omega
          calc (b.toNat - 48) * 10 ^ bs.length + digitsVal bs
              < (b.toNat - 48) * 10 ^ bs.length + 10 ^ bs.length := by omega
            _ = (b.toNat - 48 + 1) * 10 ^ bs.length := by ring
            _ ≤ (a.toNat - 48) * 10 ^ bs.length := Nat.mul_le_mul_right _ h1
            _ ≤ (a.toNat - 48) * 10 ^ bs.length + digitsVal as := Nat.le_add_right _ _
        simp [hab, hba, Nat.not_lt.mpr (Nat.le_of_lt this)]
      · have hE : a.toNat = b.toNat := by omega
        have := charsLt_digits hlen' has hbs
        simp [hab, hba, this, hE, hlen']

/-- A run of equal-length distinct blocks decides the comparison before the
suffixes are reached. -/
theorem charsLt_append_eqlen : ∀ {s t : List Char} (e f : List Char),
    s.length = t.length → s ≠ t → charsLt (s ++ e) (t ++ f) = charsLt s t
  | [], [], _, _, _, hne => absurd rfl hne
  | [], _ :: _, _, _, h, _ => by simp at h
  | _ :: _, [], _, _, h, _ => by simp at h
  | a :: as, b :: bs, e, f, hlen, hne => by
    have hlen' : as.length = bs.length := by simpa using hlen
    simp only [List.cons_append, charsLt]
    by_cases hab : a.toNat < b.toNat
    · simp [hab]
    · by_cases hba : b.toNat < a.toNat
      · simp [hab, hba]
      · have hE : a = b := charToNat_inj (by omega)
        subst hE
        have hne' : as ≠ bs := fun h => hne (by rw [h])
        simp [hab, hba, charsLt_append_eqlen e f hlen' hne']

/-- A common prefix cancels. -/
theorem charsLt_append_common : ∀ (p : List Char) {u v : List Char},
    charsLt (p ++ u) (p ++ v) = charsLt u v
  | [], _, _ => rfl
  | c :: p, u, v => by
    simp only [List.cons_append, charsLt]
    simp [Nat.lt_irrefl, charsLt_append_common p]

/-! ### Decomposition of well-formed snapshot names -/

theorem wellFormedSnap_decomp {n : String} (h : wellFormedSnap n = true) :
    n.data = "env_".data ++ tsDigits n ++ ".env".data ∧ (tsDigits n).length = 14 ∧
      ∀ c ∈ tsDigits n, isDigitChar c = true := by
  simp only [wellFormedSnap, Bool.and_eq_true, decide_eq_true_eq,
    List.isPrefixOf_iff_prefix, List.isSuffixOf_iff_suffix, List.all_eq_true] at h
  obtain ⟨⟨⟨hlen, hpre⟩, hsuf⟩, hdig⟩ := h
  obtain ⟨u, hu⟩ := hpre
  obtain ⟨v, hv⟩ := hsuf
  have hul : u.length = 18 := by
    have := congrArg List.length hu
    simp only [List.length_append, List.length_cons, List.length_nil] at this
    omega
  have hvl : v.length = 18 := by
    have := congrArg List.length hv
    simp only [List.length_append, List.length_cons, List.length_nil] at this
    omega
  have hdrop : n.data.drop 4 = u := by
    rw [← hu]; exact List.drop_left' (by rfl)
  have hdrop' : n.data.drop 4 = v.drop 4 ++ ".env".data := by
    rw [← hv, List.drop_append_of_le_length (by omega)]
  have hts : tsDigits n = v.drop 4 := by
    unfold tsDigits
    rw [hdrop']
    rw [List.take_append_of_le_length (by simp [hvl])]
    exact List.take_of_length_le (by simp [hvl])
  refine ⟨?_, ?_, ?_⟩
  · rw [← hu, ← hdrop, hdrop', hts, List.append_assoc]
  · rw [hts]; simp [hvl]
  · intro c hc
    exact hdig c hc

/-- Two distinct well-formed snapshot names compare exactly as their
embedded timestamps do. -/
theorem pyStrLt_wellFormed {a b : String}
    (ha : wellFormedSnap a = true) (hb : wellFormedSnap b = true) (hne : a ≠ b) :
    pyStrLt a b = decide (tsNat a < tsNat b) := by
  obtain ⟨hda, hla, hdiga⟩ := wellFormedSnap_decomp ha
  obtain ⟨hdb, hlb, hdigb⟩ := wellFormedSnap_decomp hb
  have htsne : tsDigits a ≠ tsDigits b := by
    intro hEq
    apply hne
    have : a.data = b.data := by rw [hda, hdb, hEq]
    cases a; cases b; exact congrArg String.mk this
  unfold pyStrLt
  rw [hda, hdb, List.append_assoc, List.append_assoc]
  rw [charsLt_append_common ("env_".data)]
  rw [charsLt_append_eqlen _ _ (by rw [hla, hlb]) htsne]
  exact charsLt_digits (by rw [hla, hlb]) hdiga hdigb

/-! ### Filesystem-operation lemmas -/

theorem fsExists_iff_mem_names {fs : FS} {n : String} :
    fsExists fs n = true ↔ n ∈ fs.names := by
  simp only [fsExists, List.any_eq_true, decide_eq_true_eq, FS.names, List.mem_map]

theorem names_fsRename (fs : FS) (old new : String) :
    (fsRename fs old new).names =
      fs.names.map (fun m => if m = old then new else m) := by
  simp only [FS.names, fsRename, List.map_map]
  apply List.map_congr_left
  intro e _
  by_cases h : e.1 = old <;> simp [h]

theorem names_fsWriteFile_of_exists {fs : FS} {n : String} (v : PyVal)
    (h : fsExists fs n = true) : (fsWriteFile fs n v).names = fs.names := by
  simp only [fsWriteFile, fsExists] at h ⊢
  rw [if_pos h]
  simp only [FS.names, List.map_map]
  apply List.map_congr_left
  intro e _
  by_cases he : e.1 = n <;> simp [he]

theorem fsRead_eq_of_mem {fs : FS} {e : String × PyVal}
    (hnd : fs.names.Nodup) (he : e ∈ fs.entries) : fsRead fs e.1 = e.2 := by
  rcases fs with ⟨entries, events⟩
  simp only [FS.names] at hnd
  induction entries with
  | nil => cases he
  | cons a l ih =>
    simp only [List.map_cons, List.nodup_cons] at hnd
    rcases List.mem_cons.mp he with rfl | hmem
    · simp [fsRead]
    · have hne : e.1 ≠ a.1 := by
        intro hEq
        apply hnd.1
        rw [← hEq]
        exact List.mem_map_of_mem Prod.fst hmem
      have := ih hnd.2 hmem
      simpa [fsRead, hne, Ne.symm hne] using this

theorem find?_map_rename {old new n : String} (h1 : n ≠ old) (h2 : n ≠ new) :
    ∀ l : List (String × PyVal),
    (l.map (fun e => if e.1 = old then (new, e.2) else e)).find?
        (fun e => e.1 = n) = l.find? (fun e => e.1 = n)
  | [] => rfl
  | a :: l => by
    by_cases ha : a.1 = old
    · simp only [List.map_cons, if_pos ha, List.find?]
      rw [show (decide ((new, a.2).1 = n)) = false from by simp [Ne.symm h2]]
      rw [show (decide (a.1 = n)) = false from by simp [ha, Ne.symm h1]]
      exact find?_map_rename h1 h2 l
    · simp only [List.map_cons, if_neg ha, List.find?]
      by_cases han : a.1 = n
      · simp [han]
      · simp only [show (decide (a.1 = n)) = false from by simp [han]]
        exact find?_map_rename h1 h2 l

theorem find?_map_write {m n : String} {v : PyVal} (h : n ≠ m) :
    ∀ l : List (String × PyVal),
    (l.map (fun e => if e.1 = m then (m, v) else e)).find?
        (fun e => e.1 = n) = l.find? (fun e => e.1 = n)
  | [] => rfl
  | a :: l => by
    by_cases ha : a.1 = m
    · simp only [List.map_cons, if_pos ha, List.find?]
      rw [show (decide ((m, v).1 = n)) = false from by simp [Ne.symm h]]
      rw [show (decide (a.1 = n)) = false from by simp [ha, Ne.symm h]]
      exact find?_map_write h l
    · simp only [List.map_cons, if_neg ha, List.find?]
      by_cases han : a.1 = n
      · simp [han]
      · simp only [show (decide (a.1 = n)) = false from by simp [han]]
        exact find?_map_write h l

theorem fsRead_fsRename_ne {fs : FS} {old new n : String}
    (h1 : n ≠ old) (h2 : n ≠ new) :
    fsRead (fsRename fs old new) n = fsRead fs n := by
  simp only [fsRead, fsRename]
  rw [find?_map_rename h1 h2]

theorem fsRead_fsWriteFile_ne {fs : FS} {m n : String} {v : PyVal}
    (h : n ≠ m) : fsRead (fsWriteFile fs m v) n = fsRead fs n := by
  simp only [fsRead, fsWriteFile]
  by_cases hex : fs.entries.any (fun e => e.1 = m)
  · rw [if_pos hex, find?_map_write h]
  · rw [if_neg hex, List.find?_append]
    have : List.find? (fun e => decide (e.1 = n)) [(m, v)] = Option.none := by
      simp [List.find?, Ne.symm h]
    rw [this]
    cases List.find? (fun e => decide (e.1 = n)) fs.entries <;> rfl

theorem strAppend_cancel_right {a b c : String} (h : a ++ c = b ++ c) : a = b := by
  have hd := congrArg String.data h
  simp only [String.data_append] at hd
  have := List.append_cancel_right hd
  cases a; cases b
  exact congrArg String.mk this

/-- Appending `.defect` to distinct names yields distinct names. -/
theorem defect_ne_of_ne {a b : String} (h : a ≠ b) :
    a ++ ".defect" ≠ b ++ ".defect" :=
  fun hEq => h (strAppend_cancel_right hEq)

/-- Effect of one iteration of the defect-marking loop in a clean
directory: the snapshot and its report are renamed (the report annotated
and rewritten first), nothing else changes, and three audit events are
appended. -/
theorem markStep_eq (fs : FS) (f : String) (now : String) (reason : Option String)
    (hnd : fs.names.Nodup)
    (hfmem : f ∈ fs.names)
    (hymem : reportName f ∈ fs.names)
    (hdict : (fsRead fs (reportName f)).isDict = true)
    (hfy : f ≠ reportName f)
    (hffresh : f ++ ".defect" ∉ fs.names)
    (hyfresh : reportName f ++ ".defect" ∉ fs.names) :
    update_yaml_report (mark_defective fs f false) f reason now false =
      ({ entries := fs.entries.map (rollbackRename [f] now reason)
         events := fs.events ++ defectEvents f }, Except.ok ()) := by
  have hyf : reportName f ≠ f := Ne.symm hfy
  have hyfd : reportName f ≠ f ++ ".defect" := fun h => hffresh (h ▸ hymem)
  have hyyd : reportName f ≠ reportName f ++ ".defect" := fun h => hyfresh (h ▸ hymem)
  have hfs1 : mark_defective fs f false = fsRename fs f (f ++ ".defect") := rfl
  -- the report still exists after the snapshot rename
  have hy1 : reportName f ∈ (fsRename fs f (f ++ ".defect")).names := by
    rw [names_fsRename]
    have := List.mem_map_of_mem (fun m => if m = f then f ++ ".defect" else m) hymem
    simpa [if_neg hyf] using this
  have hy1ex : fsExists (fsRename fs f (f ++ ".defect")) (reportName f) = true :=
    fsExists_iff_mem_names.mpr hy1
  -- and its content is unchanged
  have hy1read : fsRead (fsRename fs f (f ++ ".defect")) (reportName f)
      = fsRead fs (reportName f) := fsRead_fsRename_ne hyf hyfd
  obtain ⟨es, hes⟩ : ∃ es, fsRead fs (reportName f) = PyVal.dict es := by
    cases hv : fsRead fs (reportName f) <;> simp [hv, PyVal.isDict] at hdict ⊢
  rw [hfs1]
  unfold update_yaml_report
  simp only [hy1ex, Bool.not_true, Bool.false_and, Bool.false_eq_true, if_false,
    hy1read, hes, PyVal.isDict, Bool.and_false]
  have hwf : fsWriteFile (fsRename fs f (f ++ ".defect")) (reportName f)
      (PyVal.dict (pyDictSet es "rollback" (rollbackVal now reason))) =
      { entries := (fsRename fs f (f ++ ".defect")).entries.map
          (fun e => if e.1 = reportName f then
            (reportName f, PyVal.dict (pyDictSet es "rollback" (rollbackVal now reason)))
            else e)
        events := (fsRename fs f (f ++ ".defect")).events
          ++ [Event.write (reportName f)] } := by
    unfold fsWriteFile
    have hx : ((fsRename fs f (f ++ ".defect")).entries.any
        fun e => decide (e.1 = reportName f)) = true := hy1ex
    rw [if_pos hx]
  rw [hwf]
  unfold fsRename
  simp only [List.map_map]
  refine congrArg (fun x => (x, Except.ok ())) ?_
  refine congrArg₂ FS.mk ?_ ?_
  · apply List.map_congr_left
    intro e he
    have hmem : e.1 ∈ fs.names := List.mem_map_of_mem Prod.fst he
    simp only [Function.comp]
    by_cases hef : e.1 = f
    · have h1 : f ++ ".defect" ≠ reportName f := Ne.symm hyfd
      simp [rollbackRename, hef, h1]
    · by_cases hey : e.1 = reportName f
      · have he2 : e.2 = PyVal.dict es := by
          have := fsRead_eq_of_mem hnd he
          rw [hey, hes] at this
          exact this.symm
        simp [rollbackRename, hef, hey, annotate, he2, hyf]
      · simp [rollbackRename, hef, hey]
  · simp [defectEvents, List.append_assoc]


/-- A map that does not create or move entries named `x` preserves the
lookup of `x`. -/
theorem find?_map_untouched {x : String} {g : (String × PyVal) → String × PyVal}
    (hg1 : ∀ e : String × PyVal, e.1 ≠ x → (g e).1 ≠ x)
    (hg2 : ∀ e : String × PyVal, e.1 = x → g e = e) :
    ∀ l : List (String × PyVal),
    (l.map g).find? (fun e => e.1 = x) = l.find? (fun e => e.1 = x)
  | [] => rfl
  | a :: l => by
    by_cases ha : a.1 = x
    · simp only [List.map_cons, hg2 a ha, List.find?]
      rw [show (decide (a.1 = x)) = true from by simp [ha]]
    · simp only [List.map_cons, List.find?]
      rw [show (decide ((g a).1 = x)) = false from by simp [hg1 a ha]]
      rw [show (decide (a.1 = x)) = false from by simp [ha]]
      exact find?_map_untouched hg1 hg2 l

/-- Effect of the whole defect-marking loop on a clean directory: every
listed snapshot is renamed `.defect` and its report annotated and renamed,
in list order, and nothing else is touched. -/
theorem rollbackLoop_spec (now : String) (reason : Option String) :
    ∀ (files : List String) (fs : FS),
    fs.names.Nodup →
    (files ++ files.map reportName).Nodup →
    (∀ f ∈ files, f ∈ fs.names) →
    (∀ f ∈ files, reportName f ∈ fs.names ∧ (fsRead fs (reportName f)).isDict = true) →
    (∀ f ∈ files, f ++ ".defect" ∉ fs.names ∧ reportName f ++ ".defect" ∉ fs.names) →
    rollbackLoop now reason false fs files =
      ({ entries := fs.entries.map (rollbackRename files now reason)
         events := fs.events ++ files.flatMap defectEvents }, Except.ok ())
  | [], fs, _, _, _, _, _ => by
    simp only [rollbackLoop, List.flatMap_nil, List.append_nil]
    have h0 : fs.entries.map (rollbackRename [] now reason) = fs.entries := by
      have h : ∀ e ∈ fs.entries, rollbackRename [] now reason e = e := by
        intro e _
        simp [rollbackRename]
      rw [List.map_congr_left h]
      exact List.map_id fs.entries
    rw [h0]
  | f :: rest, fs, hnd, hfnd, hmem, hrep, hfresh => by
    -- names and disjointness facts
    have hfl : f ∈ f :: rest := List.mem_cons_self f rest
    have hnapp := List.nodup_append.mp hfnd
    have hfilesnd : (f :: rest).Nodup := hnapp.1
    have hmapnd : ((f :: rest).map reportName).Nodup := hnapp.2.1
    have hdisj : (f :: rest).Disjoint ((f :: rest).map reportName) := hnapp.2.2
    have hfnotrest : f ∉ rest := (List.nodup_cons.mp hfilesnd).1
    have hynotmaprest : reportName f ∉ rest.map reportName := by
      have h : (reportName f :: rest.map reportName).Nodup := by
        simpa only [List.map_cons] using hmapnd
      exact (List.nodup_cons.mp h).1
    have hfy : f ≠ reportName f := by
      intro hEq
      have h2 : reportName f ∈ (f :: rest).map reportName :=
        List.mem_map_of_mem reportName hfl
      rw [← hEq] at h2
      exact hdisj hfl h2
    have hrestnames : ∀ g ∈ rest, g ∈ fs.names :=
      fun g hg => hmem g (List.mem_cons_of_mem f hg)
    have hrestreports : ∀ g ∈ rest, reportName g ∈ fs.names :=
      fun g hg => (hrep g (List.mem_cons_of_mem f hg)).1
    have hgnef : ∀ g ∈ rest, g ≠ f := by
      intro g hg hEq
      exact hfnotrest (hEq ▸ hg)
    have hgney : ∀ g ∈ rest, g ≠ reportName f := by
      intro g hg hEq
      have h2 : reportName f ∈ (f :: rest).map reportName :=
        List.mem_map_of_mem reportName hfl
      rw [← hEq] at h2
      exact hdisj (List.mem_cons_of_mem f hg) h2
    have hrgnef : ∀ g ∈ rest, reportName g ≠ f := by
      intro g hg hEq
      have h2 : reportName g ∈ (f :: rest).map reportName :=
        List.mem_map_of_mem reportName (List.mem_cons_of_mem f hg)
      rw [hEq] at h2
      exact hdisj hfl h2
    have hrgney : ∀ g ∈ rest, reportName g ≠ reportName f := by
      intro g hg hEq
      have h2 : reportName g ∈ rest.map reportName :=
        List.mem_map_of_mem reportName hg
      rw [hEq] at h2
      exact hynotmaprest h2
    have hfmem := hmem f hfl
    have hymem := (hrep f hfl).1
    have hydict := (hrep f hfl).2
    have hffresh := (hfresh f hfl).1
    have hyfresh := (hfresh f hfl).2
    -- one step of the loop
    have hstep := markStep_eq fs f now reason hnd hfmem hymem hydict hfy hffresh hyfresh
    set fs2 : FS :=
      { entries := fs.entries.map (rollbackRename [f] now reason)
        events := fs.events ++ defectEvents f } with hfs2
    -- names of the new state
    have hnames2 : fs2.names = fs.names.map
        (fun m => if m = f then f ++ ".defect"
          else if m = reportName f then reportName f ++ ".defect" else m) := by
      rw [hfs2]
      simp only [FS.names, List.map_map]
      apply List.map_congr_left
      intro e _
      by_cases hef : e.1 = f <;> by_cases hey : e.1 = reportName f <;>
        simp [rollbackRename, hef, hey, Ne.symm hfy]
    have hmem2 : ∀ x ∈ fs.names, x ≠ f → x ≠ reportName f → x ∈ fs2.names := by
      intro x hx h1 h2
      rw [hnames2]
      have h := List.mem_map_of_mem
        (fun m => if m = f then f ++ ".defect"
          else if m = reportName f then reportName f ++ ".defect" else m) hx
      simpa [h1, h2] using h
    have hnotmem2 : ∀ x, x ∉ fs.names → x ≠ f ++ ".defect" →
        x ≠ reportName f ++ ".defect" → x ∉ fs2.names := by
      intro x hx h1 h2 hcon
      rw [hnames2] at hcon
      rcases List.mem_map.mp hcon with ⟨m, hm, hm2⟩
      by_cases hmf : m = f
      · rw [if_pos hmf] at hm2
        exact h1 hm2.symm
      · by_cases hmy : m = reportName f
        · rw [if_neg hmf, if_pos hmy] at hm2
          exact h2 hm2.symm
        · rw [if_neg hmf, if_neg hmy] at hm2
          exact hx (hm2 ▸ hm)
    have hread2 : ∀ x, x ≠ f → x ≠ f ++ ".defect" → x ≠ reportName f →
        x ≠ reportName f ++ ".defect" → fsRead fs2 x = fsRead fs x := by
      intro x h1 h2 h3 h4
      have hg1 : ∀ e : String × PyVal, e.1 ≠ x →
          (rollbackRename [f] now reason e).1 ≠ x := by
        intro e he
        unfold rollbackRename
        by_cases hef : e.1 = f
        · simpa [hef] using Ne.symm h2
        · by_cases hey : e.1 = reportName f
          · simpa [hef, hey, Ne.symm hfy] using Ne.symm h4
          · simpa [hef, hey] using he
      have hg2 : ∀ e : String × PyVal, e.1 = x →
          rollbackRename [f] now reason e = e := by
        intro e he
        unfold rollbackRename
        have hef : ¬ e.1 = f := by rw [he]; exact h1
        have hey : ¬ e.1 = reportName f := by rw [he]; exact h3
        simp [hef, hey]
      rw [hfs2]
      simp only [fsRead]
      rw [find?_map_untouched hg1 hg2]
    -- the new names are still distinct
    have hnd2 : fs2.names.Nodup := by
      rw [hnames2]
      refine List.Nodup.map_on ?_ hnd
      intro x hx y hy hxy
      by_cases hxf : x = f
      · by_cases hyf2 : y = f
        · rw [hxf, hyf2]
        · by_cases hyr : y = reportName f
          · rw [hxf, hyr, if_pos rfl, if_neg (Ne.symm hfy), if_pos rfl] at hxy
            exact absurd (strAppend_cancel_right hxy) hfy
          · rw [hxf, if_pos rfl, if_neg hyf2, if_neg hyr] at hxy
            rw [← hxy] at hy
            exact absurd hy hffresh
      · by_cases hxr : x = reportName f
        · by_cases hyf2 : y = f
          · rw [hxr, hyf2, if_neg (Ne.symm hfy), if_pos rfl, if_pos rfl] at hxy
            exact absurd (strAppend_cancel_right hxy).symm hfy
          · by_cases hyr : y = reportName f
            · rw [hxr, hyr]
            · rw [hxr, if_neg (Ne.symm hfy), if_pos rfl, if_neg hyf2, if_neg hyr] at hxy
              rw [← hxy] at hy
              exact absurd hy hyfresh
        · by_cases hyf2 : y = f
          · rw [hyf2, if_neg hxf, if_neg hxr, if_pos rfl] at hxy
            rw [hxy] at hx
            exact absurd hx hffresh
          · by_cases hyr : y = reportName f
            · rw [hyr, if_neg hxf, if_neg hxr, if_neg (Ne.symm hfy), if_pos rfl] at hxy
              rw [hxy] at hx
              exact absurd hx hyfresh
            · rwa [if_neg hxf, if_neg hxr, if_neg hyf2, if_neg hyr] at hxy
    -- hypotheses of the induction for the remaining files
    have hfnd2 : (rest ++ rest.map reportName).Nodup := by
      simp only [List.map_cons, List.cons_append] at hfnd
      have hsub : List.Sublist (rest ++ rest.map reportName)
          (f :: (rest ++ reportName f :: rest.map reportName)) := by
        refine List.Sublist.cons f ?_
        exact List.Sublist.append_left (List.sublist_cons_self _ _) rest
      exact List.Nodup.sublist hsub hfnd
    have hmem2' : ∀ g ∈ rest, g ∈ fs2.names := by
      intro g hg
      exact hmem2 g (hrestnames g hg) (hgnef g hg) (hgney g hg)
    have hrep2 : ∀ g ∈ rest, reportName g ∈ fs2.names ∧
        (fsRead fs2 (reportName g)).isDict = true := by
      intro g hg
      constructor
      · exact hmem2 (reportName g) (hrestreports g hg) (hrgnef g hg) (hrgney g hg)
      · rw [hread2 (reportName g) (hrgnef g hg)
          (fun h => hffresh (h ▸ hrestreports g hg)) (hrgney g hg)
          (fun h => hyfresh (h ▸ hrestreports g hg))]
        exact (hrep g (List.mem_cons_of_mem f hg)).2
    have hfresh2 : ∀ g ∈ rest, g ++ ".defect" ∉ fs2.names ∧
        reportName g ++ ".defect" ∉ fs2.names := by
      intro g hg
      constructor
      · exact hnotmem2 (g ++ ".defect") (hfresh g (List.mem_cons_of_mem f hg)).1
          (defect_ne_of_ne (hgnef g hg)) (defect_ne_of_ne (hgney g hg))
      · exact hnotmem2 (reportName g ++ ".defect")
          (hfresh g (List.mem_cons_of_mem f hg)).2
          (defect_ne_of_ne (hrgnef g hg)) (defect_ne_of_ne (hrgney g hg))
    -- apply the induction hypothesis to the state after the first step
    have hIH := rollbackLoop_spec now reason rest fs2 hnd2 hfnd2 hmem2' hrep2 hfresh2
    -- unfold one iteration
    have hone : rollbackLoop now reason false fs (f :: rest)
        = rollbackLoop now reason false fs2 rest := by
      simp only [rollbackLoop]
      rw [hstep]
    rw [hone, hIH]
    -- merge the first step into the map over the remaining files
    refine congrArg (fun x => (x, Except.ok ())) ?_
    refine congrArg₂ FS.mk ?_ ?_
    · rw [hfs2]
      simp only [List.map_map]
      apply List.map_congr_left
      intro e he
      have hmem' : e.1 ∈ fs.names := List.mem_map_of_mem Prod.fst he
      simp only [Function.comp]
      by_cases hef : e.1 = f
      · have h1 : f ++ ".defect" ∉ rest :=
          fun h => hffresh (hrestnames _ h)
        have h2 : f ++ ".defect" ∉ rest.map reportName := by
          intro h
          rcases List.mem_map.mp h with ⟨g, hg, hEq⟩
          exact hffresh (hEq ▸ hrestreports g hg)
        simp [rollbackRename, hef, h1, h2, hfnotrest]
      · by_cases hey : e.1 = reportName f
        · have h1 : reportName f ++ ".defect" ∉ rest :=
            fun h => hyfresh (hrestnames _ h)
          have h2 : reportName f ++ ".defect" ∉ rest.map reportName := by
            intro h
            rcases List.mem_map.mp h with ⟨g, hg, hEq⟩
            exact hyfresh (hEq ▸ hrestreports g hg)
          have h3 : reportName f ∉ rest := fun h => (hgney _ h) rfl
          simp [rollbackRename, hef, hey, h1, h2, h3, Ne.symm hfy]
        · by_cases hin : e.1 ∈ rest
          · simp [rollbackRename, hef, hey, hin]
          · by_cases hinr : e.1 ∈ rest.map reportName
            · simp [rollbackRename, hef, hey, hin, hinr]
            · simp [rollbackRename, hef, hey, hin, hinr]
    · rw [hfs2]
      simp only [List.flatMap_cons, List.append_assoc]

/-! ### Listing lemmas -/

theorem mem_list_env_files {fs : FS} {n : String} :
    n ∈ list_env_files fs ↔ n ∈ fs.names ∧ matchesEnvGlob n = true := by
  unfold list_env_files
  rw [mem_pySortDesc, List.mem_filter]

theorem list_env_files_nodup {fs : FS} (hnd : fs.names.Nodup) :
    (list_env_files fs).Nodup :=
  pySortDesc_nodup (List.Nodup.filter _ hnd)

/-- A name matching `env_*.env` is never a report name
(`report_<ts>.yaml`). -/
theorem matchesEnvGlob_ne_reportName {n : String} (h : matchesEnvGlob n = true)
    (m : String) : n ≠ reportName m := by
  intro hEq
  simp only [matchesEnvGlob, Bool.and_eq_true, List.isPrefixOf_iff_prefix] at h
  obtain ⟨u, hu⟩ := h.1.1
  have h2 : Option.some 'e' = Option.some 'r' :=
    congrArg List.head? (hu.trans (congrArg String.data hEq))
  exact absurd h2 (by decide)

/-! ### Dry-run helper lemmas -/

theorem update_yaml_report_dry (fs : FS) (f : String) (reason : Option String)
    (now : String) : (update_yaml_report fs f reason now true).1 = fs := by
  unfold update_yaml_report
  repeat' split
  all_goals first | rfl | simp_all

theorem rollbackLoop_dry (now : String) (reason : Option String) :
    ∀ (files : List String) (fs : FS), (rollbackLoop now reason true fs files).1 = fs
  | [], _ => rfl
  | f :: rest, fs => by
    simp only [rollbackLoop]
    rw [show mark_defective fs f true = fs from rfl]
    rcases hres : update_yaml_report fs f reason now true with ⟨fs', r⟩
    have hu : fs' = fs := by
      have hd := update_yaml_report_dry fs f reason now
      rw [hres] at hd
      exact hd
    cases r
    · simpa using hu
    · simp only []
      rw [hu]
      exact rollbackLoop_dry now reason rest fs

theorem get_env_file_dry (fs : FS) (idx : Int) (file : Option String)
    (rb : Bool) (reason : Option String) (now : String) :
    (get_env_file fs idx file rb reason true now).1 = fs := by
  unfold get_env_file
  by_cases h1 : (list_env_files fs).isEmpty
  · simp [h1]
  · by_cases h2 : pyTruthyOptStr file
    · by_cases h3 : fsExists fs (file.getD "")
      · simp [h1, h2, h3]
      · simp [h1, h2, h3]
    · cases rb with
      | false =>
        simp only [h1, h2, Bool.false_eq_true, if_false]
        split
        · rfl
        · rfl
      | true =>
        simp only [h1, h2, Bool.false_eq_true, if_false, if_true]
        rcases hres : rollbackLoop now reason true fs
            (pySlice0 (list_env_files fs) idx) with ⟨fs', r⟩
        have hu : fs' = fs := by
          have hd := rollbackLoop_dry now reason (pySlice0 (list_env_files fs) idx) fs
          rw [hres] at hd
          exact hd
        cases r
        · simpa using hu
        · simp only []
          split
          · simpa using hu
          · simpa using hu

theorem mainDeploy_dry (fs : FS) (tools : Tools) (args : Args) (now : String)
    (h : args.dry = true) : (mainDeploy fs tools args now).1 = fs := by
  unfold mainDeploy
  split
  · rfl
  · split
    · rfl
    · split
      · rfl
      · split
        · rfl
        · rw [h]
          have hsel := get_env_file_dry fs
            (if pyTruthyOptInt args.switch then args.switch.getD 0
             else if pyTruthyOptInt args.rollback then args.rollback.getD 0 else 0)
            args.file (pyTruthyOptInt args.rollback) args.reason now
          rcases hres : get_env_file fs
              (if pyTruthyOptInt args.switch then args.switch.getD 0
               else if pyTruthyOptInt args.rollback then args.rollback.getD 0 else 0)
              args.file (pyTruthyOptInt args.rollback) args.reason true now with ⟨fs', r⟩
          rw [hres] at hsel
          simp only at hsel
          cases r with
          | error e => simpa using hsel
          | ok o =>
            cases o with
            | none => simpa using hsel
            | some envFile =>
              simp only []
              rcases deploy envFile args.compose args.restart args.stop true tools with e | p
              · simpa using hsel
              · simpa using hsel

/-! ### Claim theorems -/

/-- C2: `build_docker_image` never consults local image existence: in every
non-dry run it executes `docker build` for the derived tag — in particular
also when an image with that exact tag (here `app1:abc123`) already exists
locally, where the spec and the repository's own test `test_build_skipped`
demand that the build be skipped. -/
theorem claim_C2_build_never_skipped :
    (∀ appName appPath gitHash : String,
      (build_docker_image appName appPath gitHash false).2
        = [["docker", "build", "-t", appName ++ ":" ++ gitHash, appPath]])
    ∧ build_docker_image "app1" "/repos/app1" "abc123" false
        = ("app1:abc123", [["docker", "build", "-t", "app1:abc123", "/repos/app1"]]) :=
  ⟨fun _ _ _ => rfl, rfl⟩

/-- C5: a report that parses to a truthy non-mapping (here the YAML list
`- 1`) is not skipped with a warning: `data.update` raises
`AttributeError`, the rollback aborts (the snapshot is already renamed,
the report is untouched, and no further snapshot would be processed) —
contradicting the claim that the annotation step is never fatal. -/
theorem claim_C5_nondict_report_fatal :
    (get_env_file ⟨[("env_20250831113433.env", PyVal.str "test"),
        ("report_20250831113433.yaml", PyVal.list [PyVal.int 1])], []⟩
      1 Option.none true (Option.some "bad build") false "NOW").2
      = Except.error PyErr.attributeError
    ∧ (get_env_file ⟨[("env_20250831113433.env", PyVal.str "test"),
        ("report_20250831113433.yaml", PyVal.list [PyVal.int 1])], []⟩
      1 Option.none true (Option.some "bad build") false "NOW").1.names
      = ["env_20250831113433.env.defect", "report_20250831113433.yaml"] :=
  ⟨rfl, rfl⟩

/-- C4 (counterexample): for the app name `my-app` the env line written by
`create_consolidated_env` is `MY-APP_IMAGE=…` (plain `str.upper()`), not
the `MY_APP_IMAGE=…` that the claimed normalization (`normalize_name`,
which the writer never calls) would produce. -/
theorem claim_C4_counterexample :
    envLines [("my-app", "x")] = ["MY-APP_IMAGE=x"]
    ∧ normalize_name "my-app" ++ "_IMAGE=" ++ "x" = "MY_APP_IMAGE=x"
    ∧ ("MY-APP_IMAGE=x" : String) ≠ "MY_APP_IMAGE=x" :=
  ⟨rfl, rfl, by decide⟩

/-- C4 (amended): the consolidated env file contains one line per
application of the form `<NAME.upper()>_IMAGE=<tag>` — the name is only
uppercased, with no collapsing or stripping — and a non-dry run writes
exactly the file `env_<timestamp>.env` with those lines joined by
newlines. -/
theorem claim_C4_amended (fs : FS) (images : List (String × String)) (ts : String)
    (hfresh : ("env_" ++ ts ++ ".env") ∉ fs.names) :
    (create_consolidated_env fs images ts false).2 = "env_" ++ ts ++ ".env"
    ∧ (create_consolidated_env fs images ts false).1.entries
        = fs.entries ++ [("env_" ++ ts ++ ".env",
            PyVal.str (pyJoin "\n"
              (images.map (fun p => pyUpper p.1 ++ "_IMAGE=" ++ p.2)) ++ "\n"))]
    ∧ (create_consolidated_env fs images ts false).1.events
        = fs.events ++ [Event.write ("env_" ++ ts ++ ".env")] := by
  have hex : (fs.entries.any (fun e => e.1 = "env_" ++ ts ++ ".env")) = false := by
    cases h : fs.entries.any (fun e => e.1 = "env_" ++ ts ++ ".env")
    · rfl
    · exact absurd (fsExists_iff_mem_names.mp h) hfresh
  refine ⟨rfl, ?_, ?_⟩
  · simp only [create_consolidated_env, envLines, Bool.false_eq_true, if_false,
      fsWriteFile, hex]
  · simp only [create_consolidated_env, Bool.false_eq_true, if_false, fsWriteFile]

/-- C4 (amended) witness at a concrete input. -/
theorem claim_C4_amended_witness :
    (create_consolidated_env ⟨[], []⟩ [("my-app", "my-app:abc"), ("app2", "app2:d4")]
        "20250831113433" false).2 = "env_" ++ "20250831113433" ++ ".env"
    ∧ (create_consolidated_env ⟨[], []⟩ [("my-app", "my-app:abc"), ("app2", "app2:d4")]
        "20250831113433" false).1.entries
        = ([] : List (String × PyVal)) ++ [("env_" ++ "20250831113433" ++ ".env",
            PyVal.str (pyJoin "\n"
              ([("my-app", "my-app:abc"), ("app2", "app2:d4")].map
                (fun p => pyUpper p.1 ++ "_IMAGE=" ++ p.2)) ++ "\n"))]
    ∧ (create_consolidated_env ⟨[], []⟩ [("my-app", "my-app:abc"), ("app2", "app2:d4")]
        "20250831113433" false).1.events
        = ([] : List Event) ++ [Event.write ("env_" ++ "20250831113433" ++ ".env")] :=
  claim_C4_amended ⟨[], []⟩ [("my-app", "my-app:abc"), ("app2", "app2:d4")]
    "20250831113433" (by decide)

/-- C8 (counterexample): with a directory whose only file is
`custom.env` — which exists but matches no `env_*.env` snapshot — an
explicit-filename request returns no file at all: the empty snapshot
listing short-circuits before the filename is consulted, although the
claim says an existing named file is always selected. -/
theorem claim_C8_counterexample :
    fsExists ⟨[("custom.env", PyVal.str "t")], []⟩ "custom.env" = true
    ∧ get_env_file ⟨[("custom.env", PyVal.str "t")], []⟩ 0
        (Option.some "custom.env") false Option.none false "NOW"
        = (⟨[("custom.env", PyVal.str "t")], []⟩, Except.ok Option.none) :=
  ⟨rfl, rfl⟩

/-- C8 (amended): an explicit-filename request never mutates the directory
and never consults the index or the rollback flag; provided at least one
snapshot is listed, the named file is selected exactly when it exists,
otherwise the request fails; with an empty snapshot listing it fails
without consulting the filename. -/
theorem claim_C8_amended (fs : FS) (index : Int) (f : String) (rollback : Bool)
    (reason : Option String) (dry : Bool) (now : String) (hf : f ≠ "") :
    get_env_file fs index (Option.some f) rollback reason dry now
      = (fs, Except.ok (if (list_env_files fs).isEmpty then Option.none
          else if fsExists fs f then Option.some f else Option.none)) := by
  have htr : pyTruthyOptStr (Option.some f) = true := by
    simp [pyTruthyOptStr, hf]
  unfold get_env_file
  by_cases h1 : (list_env_files fs).isEmpty
  · simp [h1]
  · by_cases h2 : fsExists fs f
    · simp [h1, htr, h2]
    · simp [h1, htr, h2]

/-- C8 (amended) witness at a concrete input. -/
theorem claim_C8_amended_witness :
    get_env_file ⟨[("env_20250831113433.env", PyVal.str "t")], []⟩ 7
        (Option.some "env_20250831113433.env") true (Option.some "r") false "NOW"
      = (⟨[("env_20250831113433.env", PyVal.str "t")], []⟩,
         Except.ok (if (list_env_files
             ⟨[("env_20250831113433.env", PyVal.str "t")], []⟩).isEmpty
           then Option.none
           else if fsExists ⟨[("env_20250831113433.env", PyVal.str "t")], []⟩
               "env_20250831113433.env"
             then Option.some "env_20250831113433.env" else Option.none)) :=
  claim_C8_amended ⟨[("env_20250831113433.env", PyVal.str "t")], []⟩ 7
    "env_20250831113433.env" true (Option.some "r") false "NOW" (by decide)

/-- C1 (counterexample): over a directory of M = 2 snapshots, a rollback
request with index 2 ≥ M is reported as an invalid index and selects
nothing — but both snapshots have already been renamed `.defect` first, so
the artifact directory is NOT left unchanged. -/
theorem claim_C1_counterexample :
    (get_env_file ⟨[("env_20250830133324.env", PyVal.str "t"),
        ("env_20250831113433.env", PyVal.str "t")], []⟩
      2 Option.none true (Option.some "bad build") false "NOW").2
      = Except.ok Option.none
    ∧ (get_env_file ⟨[("env_20250830133324.env", PyVal.str "t"),
        ("env_20250831113433.env", PyVal.str "t")], []⟩
      2 Option.none true (Option.some "bad build") false "NOW").1.names
      = ["env_20250830133324.env.defect", "env_20250831113433.env.defect"]
    ∧ (FS.mk [("env_20250830133324.env", PyVal.str "t"),
        ("env_20250831113433.env", PyVal.str "t")] []).names
      = ["env_20250830133324.env", "env_20250831113433.env"] :=
  ⟨rfl, rfl, rfl⟩

/-- C7 (counterexample): with no compose tool available, a rollback
invocation of the deployer still marks the newest snapshot defective
during selection, and only afterwards raises the fatal `RuntimeError`
from the compose-tool check — the failure is not prior to every other
deployment action. -/
theorem claim_C7_counterexample :
    (mainDeploy ⟨[("env_20250830133324.env", PyVal.str "t"),
        ("env_20250831113433.env", PyVal.str "t")], []⟩
      ⟨false, false, true⟩
      ⟨Option.none, Option.some 1, Option.none, ["docker-compose.yml"],
        false, false, Option.some "bad build", false, false⟩ "NOW").2
      = MainOutcome.raised PyErr.runtimeError
    ∧ (mainDeploy ⟨[("env_20250830133324.env", PyVal.str "t"),
        ("env_20250831113433.env", PyVal.str "t")], []⟩
      ⟨false, false, true⟩
      ⟨Option.none, Option.some 1, Option.none, ["docker-compose.yml"],
        false, false, Option.some "bad build", false, false⟩ "NOW").1.names
      = ["env_20250830133324.env", "env_20250831113433.env.defect"] :=
  ⟨rfl, rfl⟩

/-- C6: dry-run mode performs no filesystem mutation anywhere: the env
writer, the report writer, defect marking, report annotation, the whole
selection (including rollback marking) and a whole deployer run leave the
directory — entries and audit trail alike — exactly as it was. -/
theorem claim_C6_dry_run_no_mutation :
    (∀ (fs : FS) (images : List (String × String)) (ts : String),
      (create_consolidated_env fs images ts true).1 = fs)
    ∧ (∀ (fs : FS) (images : List (String × String)) (ef ts : String),
      (generate_consolidated_report fs images ef ts true).1 = fs)
    ∧ (∀ (fs : FS) (f : String), mark_defective fs f true = fs)
    ∧ (∀ (fs : FS) (f : String) (reason : Option String) (now : String),
      (update_yaml_report fs f reason now true).1 = fs)
    ∧ (∀ (fs : FS) (idx : Int) (file : Option String) (rb : Bool)
        (reason : Option String) (now : String),
      (get_env_file fs idx file rb reason true now).1 = fs)
    ∧ (∀ (fs : FS) (tools : Tools) (args : Args) (now : String),
      (mainDeploy fs tools { args with dry := true } now).1 = fs) :=
  ⟨fun _ _ _ => rfl, fun _ _ _ _ => rfl, fun _ _ => rfl,
   update_yaml_report_dry,
   fun fs idx file rb reason now => get_env_file_dry fs idx file rb reason now,
   fun fs tools args now => mainDeploy_dry fs tools { args with dry := true } now rfl⟩

/-- C7 (amended): when `check_docker_compose` fails (no compose tool), no
invocation of the deployer ever reaches a deployed outcome — no compose
command is assembled or executed; every run ends in an early abort or in
the raised `RuntimeError`. -/
theorem claim_C7_amended (fs : FS) (tools : Tools) (args : Args) (now : String)
    (h : check_docker_compose tools = Except.error PyErr.runtimeError) :
    ∀ (ef : String) (cmd : List String) (ex : Bool),
      (mainDeploy fs tools args now).2 ≠ MainOutcome.deployed ef cmd ex := by
  intro ef cmd ex hcon
  unfold mainDeploy at hcon
  split at hcon
  · exact absurd (congrArg id hcon) (by simp)
  · split at hcon
    · exact absurd (congrArg id hcon) (by simp)
    · split at hcon
      · exact absurd (congrArg id hcon) (by simp)
      · split at hcon
        · exact absurd (congrArg id hcon) (by simp)
        · split at hcon
          · simp at hcon
          · simp at hcon
          · rename_i fs1 envFile heq
            unfold deploy at hcon
            rw [h] at hcon
            simp at hcon

/-- C7 (amended) witness at a concrete input. -/
theorem claim_C7_amended_witness :
    (mainDeploy ⟨[("env_20250831113433.env", PyVal.str "t")], []⟩
      ⟨false, false, true⟩
      ⟨Option.none, Option.none, Option.none, ["docker-compose.yml"],
        false, false, Option.none, false, false⟩ "NOW").2
      ≠ MainOutcome.deployed "env_20250831113433.env"
          ["docker-compose", "-f", "docker-compose.yml",
           "--env-file", "env_20250831113433.env", "up", "-d"] true :=
  claim_C7_amended ⟨[("env_20250831113433.env", PyVal.str "t")], []⟩
    ⟨false, false, true⟩
    ⟨Option.none, Option.none, Option.none, ["docker-compose.yml"],
      false, false, Option.none, false, false⟩ "NOW" rfl
    "env_20250831113433.env"
    ["docker-compose", "-f", "docker-compose.yml",
     "--env-file", "env_20250831113433.env", "up", "-d"] true

/-- C10: an explicit `--rollback 0` is falsy, so both CLI validations (the
reason-required check and the rollback/switch mutual-exclusion check) are
bypassed; and — without a switch, filename or list request — no snapshot is
marked defective and the newest snapshot (index 0) is handed to the
compose step. -/
theorem claim_C10_rollback_zero (fs : FS) (tools : Tools) (args : Args)
    (now : String) (h1 : args.rollback = Option.some 0) :
    ((mainDeploy fs tools args now).2 ≠ MainOutcome.reasonRequired
      ∧ (mainDeploy fs tools args now).2 ≠ MainOutcome.mutuallyExclusive)
    ∧ (args.switch = Option.none → args.file = Option.none → args.list = false →
        tools.hasDockerCompose = true → list_env_files fs ≠ [] →
        (mainDeploy fs tools args now).1 = fs
          ∧ ∃ cmd, (mainDeploy fs tools args now).2
              = MainOutcome.deployed ((list_env_files fs).headD "") cmd (!args.dry)) := by
  have hto : pyTruthyOptInt args.rollback = false := by
    rw [h1]; rfl
  constructor
  · constructor
    · intro hcon
      unfold mainDeploy at hcon
      rw [hto] at hcon
      simp only [Bool.false_and, Bool.false_eq_true, if_false] at hcon
      split at hcon
      · simp at hcon
      · split at hcon
        · simp at hcon
        · split at hcon
          · simp at hcon
          · simp at hcon
          · split at hcon
            · simp at hcon
            · simp at hcon
    · intro hcon
      unfold mainDeploy at hcon
      rw [hto] at hcon
      simp only [Bool.false_and, Bool.false_eq_true, if_false] at hcon
      split at hcon
      · simp at hcon
      · split at hcon
        · simp at hcon
        · split at hcon
          · simp at hcon
          · simp at hcon
          · split at hcon
            · simp at hcon
            · simp at hcon
  · intro hsw hf hl ht hne
    have hie : (list_env_files fs).isEmpty = false := by
      cases hL : list_env_files fs
      · exact absurd hL hne
      · rfl
    have hlen : 0 < (list_env_files fs).length := List.length_pos.mpr hne
    have hsel : get_env_file fs 0 Option.none false args.reason args.dry now
        = (fs, Except.ok (Option.some ((list_env_files fs).headD ""))) := by
      unfold get_env_file
      rw [hie]
      simp only [Bool.false_eq_true, if_false]
      rw [show pyTruthyOptStr Option.none = false from rfl]
      simp only [Bool.false_eq_true, if_false]
      rw [dif_pos ⟨le_refl (0 : Int), by exact_mod_cast hlen⟩]
      have hget : ∀ (l : List String) (h : 0 < l.length),
          l.get ⟨0, h⟩ = l.headD "" := by
        intro l h
        cases l
        · simp at h
        · rfl
      exact congrArg (fun x => (fs, Except.ok (Option.some x)))
        (hget (list_env_files fs) hlen)
    unfold mainDeploy
    rw [hto]
    simp only [Bool.false_and, Bool.false_eq_true, if_false, hie, hl]
    rw [hsw, hf]
    rw [show pyTruthyOptInt Option.none = false from rfl]
    simp only [Bool.false_eq_true, if_false, hto]
    rw [hsel]
    unfold deploy check_docker_compose
    rw [ht]
    simp only [if_true]
    constructor
    · first | rfl | trivial
    · exact ⟨_, rfl⟩

/-- C10 witness at a concrete input (reason even absent: the
reason-required validation is bypassed). -/
theorem claim_C10_rollback_zero_witness :
    (((mainDeploy
          ⟨[("env_20250830133324.env", PyVal.str "t"),
            ("env_20250831113433.env", PyVal.str "t")], []⟩
          ⟨true, false, false⟩
          ⟨Option.none, Option.some 0, Option.none, ["docker-compose.yml"],
            false, false, Option.none, false, false⟩ "NOW").2
        ≠ MainOutcome.reasonRequired
      ∧ (mainDeploy
          ⟨[("env_20250830133324.env", PyVal.str "t"),
            ("env_20250831113433.env", PyVal.str "t")], []⟩
          ⟨true, false, false⟩
          ⟨Option.none, Option.some 0, Option.none, ["docker-compose.yml"],
            false, false, Option.none, false, false⟩ "NOW").2
        ≠ MainOutcome.mutuallyExclusive))
    ∧ ((mainDeploy
          ⟨[("env_20250830133324.env", PyVal.str "t"),
            ("env_20250831113433.env", PyVal.str "t")], []⟩
          ⟨true, false, false⟩
          ⟨Option.none, Option.some 0, Option.none, ["docker-compose.yml"],
            false, false, Option.none, false, false⟩ "NOW").1
        = ⟨[("env_20250830133324.env", PyVal.str "t"),
            ("env_20250831113433.env", PyVal.str "t")], []⟩
      ∧ ∃ cmd, (mainDeploy
          ⟨[("env_20250830133324.env", PyVal.str "t"),
            ("env_20250831113433.env", PyVal.str "t")], []⟩
          ⟨true, false, false⟩
          ⟨Option.none, Option.some 0, Option.none, ["docker-compose.yml"],
            false, false, Option.none, false, false⟩ "NOW").2
        = MainOutcome.deployed ((list_env_files
            ⟨[("env_20250830133324.env", PyVal.str "t"),
              ("env_20250831113433.env", PyVal.str "t")], []⟩).headD "")
            cmd (!false)) := by
  have h := claim_C10_rollback_zero
    ⟨[("env_20250830133324.env", PyVal.str "t"),
      ("env_20250831113433.env", PyVal.str "t")], []⟩
    ⟨true, false, false⟩
    ⟨Option.none, Option.some 0, Option.none, ["docker-compose.yml"],
      false, false, Option.none, false, false⟩ "NOW" rfl
  exact ⟨h.1, h.2 rfl rfl rfl rfl (by decide)⟩

/-- A name matching `env_*.env` does not carry the `.defect` suffix. -/
theorem matchesEnvGlob_not_defect {n : String} (h : matchesEnvGlob n = true) :
    ".defect".data.isSuffixOf n.data = false := by
  cases hd : ".defect".data.isSuffixOf n.data
  · rfl
  · exfalso
    simp only [matchesEnvGlob, Bool.and_eq_true, List.isSuffixOf_iff_suffix] at h
    rw [List.isSuffixOf_iff_suffix] at hd
    rcases List.suffix_or_suffix_of_suffix h.1.2 hd with hc | hc
    · rw [← List.isSuffixOf_iff_suffix] at hc
      exact absurd hc (by decide)
    · rw [← List.isSuffixOf_iff_suffix] at hc
      exact absurd hc (by decide)

/-- C9: over a directory whose glob-matching names are all well-formed
`env_<YYYYMMDDHHMMSS>.env` snapshots, the listing is exactly the
glob-matching names (in particular no `.defect`-suffixed file), ordered
strictly newest-first by the embedded timestamp value. -/
theorem claim_C9_listing (fs : FS)
    (hnd : fs.names.Nodup)
    (hwf : ∀ n ∈ fs.names, matchesEnvGlob n = true → wellFormedSnap n = true) :
    (list_env_files fs).Perm (fs.names.filter (fun n => matchesEnvGlob n))
    ∧ (∀ n ∈ list_env_files fs, matchesEnvGlob n = true
        ∧ ".defect".data.isSuffixOf n.data = false)
    ∧ (list_env_files fs).Pairwise (fun a b => tsNat b < tsNat a) := by
  have hperm : (list_env_files fs).Perm
      (fs.names.filter (fun n => matchesEnvGlob n)) := pySortDesc_perm _
  have hmemglob : ∀ n ∈ list_env_files fs, matchesEnvGlob n = true := by
    intro n hn
    exact (mem_list_env_files.mp hn).2
  refine ⟨hperm,
    fun n hn => ⟨hmemglob n hn, matchesEnvGlob_not_defect (hmemglob n hn)⟩, ?_⟩
  have hsorted : (list_env_files fs).Pairwise (fun a b => pyStrLt a b = false) :=
    pySortDesc_sorted _
  have hnodupL : (list_env_files fs).Nodup := list_env_files_nodup hnd
  have hcomb := hsorted.and hnodupL
  refine List.Pairwise.imp_of_mem ?_ hcomb
  intro a b ha hb hab
  have hga := hwf a (mem_list_env_files.mp ha).1 (hmemglob a ha)
  have hgb := hwf b (mem_list_env_files.mp hb).1 (hmemglob b hb)
  have hba : pyStrLt b a = true := by
    rcases pyStrLt_total a b with h | h | h
    · rw [h] at hab
      exact absurd hab.1 (by simp)
    · exact absurd h hab.2
    · exact h
  have hdec := pyStrLt_wellFormed hgb hga (fun hEq => hab.2 hEq.symm)
  rw [hba] at hdec
  exact of_decide_eq_true hdec.symm

/-- C9 witness at a concrete directory (two snapshots out of timestamp
order in the directory, one `.defect` file, one report). -/
theorem claim_C9_listing_witness :
    (list_env_files ⟨[("env_20250830133324.env", PyVal.str "t"),
        ("env_20250831113433.env", PyVal.str "t"),
        ("env_20250829000000.env.defect", PyVal.str "t"),
        ("report_20250831113433.yaml", PyVal.dict [])], []⟩).Perm
      ((FS.mk [("env_20250830133324.env", PyVal.str "t"),
        ("env_20250831113433.env", PyVal.str "t"),
        ("env_20250829000000.env.defect", PyVal.str "t"),
        ("report_20250831113433.yaml", PyVal.dict [])] []).names.filter
          (fun n => matchesEnvGlob n))
    ∧ (∀ n ∈ list_env_files ⟨[("env_20250830133324.env", PyVal.str "t"),
        ("env_20250831113433.env", PyVal.str "t"),
        ("env_20250829000000.env.defect", PyVal.str "t"),
        ("report_20250831113433.yaml", PyVal.dict [])], []⟩,
        matchesEnvGlob n = true ∧ ".defect".data.isSuffixOf n.data = false)
    ∧ (list_env_files ⟨[("env_20250830133324.env", PyVal.str "t"),
        ("env_20250831113433.env", PyVal.str "t"),
        ("env_20250829000000.env.defect", PyVal.str "t"),
        ("report_20250831113433.yaml", PyVal.dict [])], []⟩).Pairwise
        (fun a b => tsNat b < tsNat a) :=
  claim_C9_listing ⟨[("env_20250830133324.env", PyVal.str "t"),
    ("env_20250831113433.env", PyVal.str "t"),
    ("env_20250829000000.env.defect", PyVal.str "t"),
    ("report_20250831113433.yaml", PyVal.dict [])], []⟩
    (by decide) (by decide)

/-- C1 (amended): over a directory of M ≥ 1 well-kept snapshots, a
rollback request with index k ≥ M returns no file (the invalid-index
error) — but only after the slice `env_files[0:k]`, i.e. all M snapshots,
has been processed: every snapshot is renamed `.defect` and its report
annotated and retired. -/
theorem claim_C1_amended (fs : FS) (k : Int) (reason : Option String) (now : String)
    (hnd : fs.names.Nodup)
    (hne : list_env_files fs ≠ [])
    (hk : ((list_env_files fs).length : Int) ≤ k)
    (hfnd : (list_env_files fs ++ (list_env_files fs).map reportName).Nodup)
    (hrep : ∀ f ∈ list_env_files fs, reportName f ∈ fs.names
      ∧ (fsRead fs (reportName f)).isDict = true)
    (hfresh : ∀ f ∈ list_env_files fs, f ++ ".defect" ∉ fs.names
      ∧ reportName f ++ ".defect" ∉ fs.names) :
    get_env_file fs k Option.none true reason false now =
      ({ entries := fs.entries.map (rollbackRename (list_env_files fs) now reason)
         events := fs.events ++ (list_env_files fs).flatMap defectEvents },
       Except.ok Option.none) := by
  have hie : (list_env_files fs).isEmpty = false := by
    cases hL : list_env_files fs
    · exact absurd hL hne
    · rfl
  have hmem : ∀ f ∈ list_env_files fs, f ∈ fs.names :=
    fun f hf => (mem_list_env_files.mp hf).1
  have hslice : pySlice0 (list_env_files fs) k = list_env_files fs := by
    unfold pySlice0
    rw [if_neg (by omega : ¬ k < 0)]
    exact List.take_of_length_le (by omega)
  have hloop := rollbackLoop_spec now reason (list_env_files fs) fs
    hnd hfnd hmem hrep hfresh
  have hcond : ¬ (0 ≤ k ∧ k < ((list_env_files fs).length : Int)) := by omega
  unfold get_env_file
  rw [hie]
  simp only [Bool.false_eq_true, if_false]
  rw [show pyTruthyOptStr Option.none = false from rfl]
  simp only [Bool.false_eq_true, if_false, if_true]
  rw [hslice, hloop]
  simp only [hcond, dite_false]

/-- C1 (amended) witness at a concrete directory: one snapshot with its
report, rollback index 2 ≥ M = 1. -/
theorem claim_C1_amended_witness :
    get_env_file ⟨[("env_20250831113433.env", PyVal.str "t"),
        ("report_20250831113433.yaml", PyVal.dict [("timestamp", PyVal.str "x")])], []⟩
      2 Option.none true (Option.some "bad build") false "NOW" =
      ({ entries := ([("env_20250831113433.env", PyVal.str "t"),
            ("report_20250831113433.yaml",
              PyVal.dict [("timestamp", PyVal.str "x")])] :
            List (String × PyVal)).map
          (rollbackRename (list_env_files
              ⟨[("env_20250831113433.env", PyVal.str "t"),
                ("report_20250831113433.yaml",
                  PyVal.dict [("timestamp", PyVal.str "x")])], []⟩)
            "NOW" (Option.some "bad build"))
         events := ([] : List Event) ++ (list_env_files
            ⟨[("env_20250831113433.env", PyVal.str "t"),
              ("report_20250831113433.yaml",
                PyVal.dict [("timestamp", PyVal.str "x")])], []⟩).flatMap
              defectEvents },
       Except.ok Option.none) :=
  claim_C1_amended ⟨[("env_20250831113433.env", PyVal.str "t"),
      ("report_20250831113433.yaml", PyVal.dict [("timestamp", PyVal.str "x")])], []⟩
    2 (Option.some "bad build") "NOW"
    (by decide) (by decide) (by decide) (by decide) (by decide) (by decide)

/-- C3: rollback with index 0 ≤ k < M (no explicit filename, reports in
place) marks exactly the k newest snapshots: each is renamed `.defect` and
its paired report annotated and retired, processed newest-to-oldest (the
audit trail lists the three mutations per snapshot in listing order); the
snapshot at position k is returned as the selected target; and every entry
outside the k processed snapshots and their reports — in particular every
snapshot at a position > k — is untouched. -/
theorem claim_C3_rollback_marks_k_newest (fs : FS) (k : Int)
    (reason : Option String) (now : String)
    (hnd : fs.names.Nodup)
    (hk0 : 0 ≤ k) (hk : k < ((list_env_files fs).length : Int))
    (hfnd : ((list_env_files fs).take k.toNat
        ++ ((list_env_files fs).take k.toNat).map reportName).Nodup)
    (hrep : ∀ f ∈ (list_env_files fs).take k.toNat, reportName f ∈ fs.names
      ∧ (fsRead fs (reportName f)).isDict = true)
    (hfresh : ∀ f ∈ (list_env_files fs).take k.toNat, f ++ ".defect" ∉ fs.names
      ∧ reportName f ++ ".defect" ∉ fs.names) :
    (∃ target, (list_env_files fs)[k.toNat]? = Option.some target
      ∧ get_env_file fs k Option.none true reason false now =
        ({ entries := fs.entries.map
            (rollbackRename ((list_env_files fs).take k.toNat) now reason)
           events := fs.events
            ++ ((list_env_files fs).take k.toNat).flatMap defectEvents },
         Except.ok (Option.some target)))
    ∧ (∀ e ∈ fs.entries, e.1 ∉ (list_env_files fs).take k.toNat →
        e.1 ∉ ((list_env_files fs).take k.toNat).map reportName →
        e ∈ (get_env_file fs k Option.none true reason false now).1.entries)
    ∧ (∀ (i : Nat), k < (i : Int) → ∀ hi : i < (list_env_files fs).length,
        (list_env_files fs).get ⟨i, hi⟩ ∉ (list_env_files fs).take k.toNat
        ∧ (list_env_files fs).get ⟨i, hi⟩
            ∉ ((list_env_files fs).take k.toNat).map reportName) := by
  have hklen : k.toNat < (list_env_files fs).length := by omega
  have hie : (list_env_files fs).isEmpty = false := by
    cases hL : list_env_files fs
    · rw [hL] at hklen
      simp at hklen
    · rfl
  have hmemT : ∀ f ∈ (list_env_files fs).take k.toNat, f ∈ fs.names :=
    fun f hf => (mem_list_env_files.mp (List.take_subset _ _ hf)).1
  have hslice : pySlice0 (list_env_files fs) k
      = (list_env_files fs).take k.toNat := by
    unfold pySlice0
    rw [if_neg (by omega : ¬ k < 0)]
  have hloop := rollbackLoop_spec now reason ((list_env_files fs).take k.toNat) fs
    hnd hfnd hmemT hrep hfresh
  have hcond : 0 ≤ k ∧ k < (((list_env_files fs)).length : Int) := ⟨hk0, hk⟩
  have hmain : get_env_file fs k Option.none true reason false now =
      ({ entries := fs.entries.map
          (rollbackRename ((list_env_files fs).take k.toNat) now reason)
         events := fs.events
          ++ ((list_env_files fs).take k.toNat).flatMap defectEvents },
       Except.ok (Option.some ((list_env_files fs).get ⟨k.toNat, hklen⟩))) := by
    unfold get_env_file
    rw [hie]
    simp only [Bool.false_eq_true, if_false]
    rw [show pyTruthyOptStr Option.none = false from rfl]
    simp only [Bool.false_eq_true, if_false, if_true]
    rw [hslice, hloop]
    dsimp only
    rw [dif_pos hcond]
  refine ⟨⟨(list_env_files fs).get ⟨k.toNat, hklen⟩, ?_, hmain⟩, ?_, ?_⟩
  · exact List.getElem?_eq_getElem hklen
  · intro e he h1 h2
    rw [hmain]
    have hfix : rollbackRename ((list_env_files fs).take k.toNat) now reason e = e := by
      unfold rollbackRename
      rw [if_neg h1, if_neg h2]
    have := List.mem_map_of_mem
      (rollbackRename ((list_env_files fs).take k.toNat) now reason) he
    rw [hfix] at this
    exact this
  · intro i hilt hi
    have hnodupL : (list_env_files fs).Nodup := list_env_files_nodup hnd
    have hdisjTD := List.disjoint_take_drop (l := list_env_files fs)
      hnodupL (Nat.le_refl k.toNat)
    have hsplit : k.toNat + (i - k.toNat) = i := by omega
    have h2 : k.toNat + (i - k.toNat) < (list_env_files fs).length := by omega
    have hdropped : (list_env_files fs).get ⟨i, hi⟩
        ∈ (list_env_files fs).drop k.toNat := by
      have hgd := List.get_drop (list_env_files fs)
        (i := k.toNat) (j := i - k.toNat) h2
      have heq : (list_env_files fs).get ⟨i, hi⟩
          = (list_env_files fs).get ⟨k.toNat + (i - k.toNat), h2⟩ :=
        congrArg (list_env_files fs).get (Fin.ext hsplit.symm)
      rw [heq, hgd]
      exact List.get_mem _ _ _
    constructor
    · intro hT
      exact hdisjTD hT hdropped
    · intro hmem'
      rcases List.mem_map.mp hmem' with ⟨m, _, hEq⟩
      have hglob : matchesEnvGlob ((list_env_files fs).get ⟨i, hi⟩) = true :=
        (mem_list_env_files.mp (List.get_mem _ _ _)).2
      exact matchesEnvGlob_ne_reportName hglob m hEq.symm

/-- C3 witness: two snapshots with their reports, rollback index 1. -/
theorem claim_C3_rollback_witness :
    (∃ target, (list_env_files ⟨[("env_20250830133324.env", PyVal.str "t"),
        ("env_20250831113433.env", PyVal.str "t"),
        ("report_20250831113433.yaml", PyVal.dict [("timestamp", PyVal.str "a")]),
        ("report_20250830133324.yaml", PyVal.dict [("timestamp", PyVal.str "b")])],
        []⟩)[(1 : Int).toNat]? = Option.some target
      ∧ get_env_file ⟨[("env_20250830133324.env", PyVal.str "t"),
          ("env_20250831113433.env", PyVal.str "t"),
          ("report_20250831113433.yaml", PyVal.dict [("timestamp", PyVal.str "a")]),
          ("report_20250830133324.yaml", PyVal.dict [("timestamp", PyVal.str "b")])],
          []⟩ 1 Option.none true (Option.some "bad build") false "NOW" =
        ({ entries := ([("env_20250830133324.env", PyVal.str "t"),
              ("env_20250831113433.env", PyVal.str "t"),
              ("report_20250831113433.yaml", PyVal.dict [("timestamp", PyVal.str "a")]),
              ("report_20250830133324.yaml", PyVal.dict [("timestamp", PyVal.str "b")])] :
              List (String × PyVal)).map
            (rollbackRename ((list_env_files ⟨[("env_20250830133324.env", PyVal.str "t"),
                ("env_20250831113433.env", PyVal.str "t"),
                ("report_20250831113433.yaml", PyVal.dict [("timestamp", PyVal.str "a")]),
                ("report_20250830133324.yaml", PyVal.dict [("timestamp", PyVal.str "b")])],
                []⟩).take (1 : Int).toNat) "NOW" (Option.some "bad build"))
           events := ([] : List Event)
            ++ ((list_env_files ⟨[("env_20250830133324.env", PyVal.str "t"),
                ("env_20250831113433.env", PyVal.str "t"),
                ("report_20250831113433.yaml", PyVal.dict [("timestamp", PyVal.str "a")]),
                ("report_20250830133324.yaml", PyVal.dict [("timestamp", PyVal.str "b")])],
                []⟩).take (1 : Int).toNat).flatMap defectEvents },
         Except.ok (Option.some target)))
    ∧ (∀ e ∈ ([("env_20250830133324.env", PyVal.str "t"),
          ("env_20250831113433.env", PyVal.str "t"),
          ("report_20250831113433.yaml", PyVal.dict [("timestamp", PyVal.str "a")]),
          ("report_20250830133324.yaml", PyVal.dict [("timestamp", PyVal.str "b")])] :
          List (String × PyVal)),
        e.1 ∉ (list_env_files ⟨[("env_20250830133324.env", PyVal.str "t"),
            ("env_20250831113433.env", PyVal.str "t"),
            ("report_20250831113433.yaml", PyVal.dict [("timestamp", PyVal.str "a")]),
            ("report_20250830133324.yaml", PyVal.dict [("timestamp", PyVal.str "b")])],
            []⟩).take (1 : Int).toNat →
        e.1 ∉ ((list_env_files ⟨[("env_20250830133324.env", PyVal.str "t"),
            ("env_20250831113433.env", PyVal.str "t"),
            ("report_20250831113433.yaml", PyVal.dict [("timestamp", PyVal.str "a")]),
            ("report_20250830133324.yaml", PyVal.dict [("timestamp", PyVal.str "b")])],
            []⟩).take (1 : Int).toNat).map reportName →
        e ∈ (get_env_file ⟨[("env_20250830133324.env", PyVal.str "t"),
            ("env_20250831113433.env", PyVal.str "t"),
            ("report_20250831113433.yaml", PyVal.dict [("timestamp", PyVal.str "a")]),
            ("report_20250830133324.yaml", PyVal.dict [("timestamp", PyVal.str "b")])],
            []⟩ 1 Option.none true (Option.some "bad build") false "NOW").1.entries)
    ∧ (∀ (i : Nat), (1 : Int) < (i : Int) →
        ∀ hi : i < (list_env_files ⟨[("env_20250830133324.env", PyVal.str "t"),
            ("env_20250831113433.env", PyVal.str "t"),
            ("report_20250831113433.yaml", PyVal.dict [("timestamp", PyVal.str "a")]),
            ("report_20250830133324.yaml", PyVal.dict [("timestamp", PyVal.str "b")])],
            []⟩).length,
        (list_env_files ⟨[("env_20250830133324.env", PyVal.str "t"),
            ("env_20250831113433.env", PyVal.str "t"),
            ("report_20250831113433.yaml", PyVal.dict [("timestamp", PyVal.str "a")]),
            ("report_20250830133324.yaml", PyVal.dict [("timestamp", PyVal.str "b")])],
            []⟩).get ⟨i, hi⟩
          ∉ (list_env_files ⟨[("env_20250830133324.env", PyVal.str "t"),
            ("env_20250831113433.env", PyVal.str "t"),
            ("report_20250831113433.yaml", PyVal.dict [("timestamp", PyVal.str "a")]),
            ("report_20250830133324.yaml", PyVal.dict [("timestamp", PyVal.str "b")])],
            []⟩).take (1 : Int).toNat
        ∧ (list_env_files ⟨[("env_20250830133324.env", PyVal.str "t"),
            ("env_20250831113433.env", PyVal.str "t"),
            ("report_20250831113433.yaml", PyVal.dict [("timestamp", PyVal.str "a")]),
            ("report_20250830133324.yaml", PyVal.dict [("timestamp", PyVal.str "b")])],
            []⟩).get ⟨i, hi⟩
          ∉ ((list_env_files ⟨[("env_20250830133324.env", PyVal.str "t"),
            ("env_20250831113433.env", PyVal.str "t"),
            ("report_20250831113433.yaml", PyVal.dict [("timestamp", PyVal.str "a")]),
            ("report_20250830133324.yaml", PyVal.dict [("timestamp", PyVal.str "b")])],
            []⟩).take (1 : Int).toNat).map reportName) :=
  claim_C3_rollback_marks_k_newest ⟨[("env_20250830133324.env", PyVal.str "t"),
      ("env_20250831113433.env", PyVal.str "t"),
      ("report_20250831113433.yaml", PyVal.dict [("timestamp", PyVal.str "a")]),
      ("report_20250830133324.yaml", PyVal.dict [("timestamp", PyVal.str "b")])], []⟩
    1 (Option.some "bad build") "NOW"
    (by decide) (by decide) (by decide) (by decide) (by decide) (by decide)

end Composor
